import Mathlib

/-
  Verification development for the budget-app transaction import pipeline.

  The definitions below are a shallow embedding of the Python sources:
    apps/imports/parsers/csv_parser.py
    apps/imports/parsers/xml_parser.py
    apps/imports/parsers/ofx_parser.py
    apps/imports/services/import_service.py
    apps/budgets/models/budget.py           (get_next_sequence_number)
    apps/budgets/models/budget_item.py      (persisted item fields)

  Modelling conventions:
  * Python `Decimal` is modelled by `Dec` (integer mantissa, base-10
    exponent); arithmetic is exact, equality/order are numeric, and
    `Dec.val` maps into the rationals for value-level statements.
  * Django ORM state is a `DB` record: a global item list, global
    name tables for Category/Member/Source, a per-budget record (tag
    lists and the sequence counter), the tracker table and pk counters.
  * Python falsy-string conventions are kept: the empty string stands
    for an absent optional text value.
  * Library-level concerns outside the repository (raw CSV tokenising,
    the ofxparse object reader, XML well-formedness) are taken at the
    boundary the code itself consumes: a CSV input is a header list
    plus dict rows, an OFX input is the account/statement/transaction
    object tree, an XML input is a parsed element tree.
-/

/-! ## Exact decimals (model of Python `Decimal`) -/

def pow10 : Nat → Int
  | 0 => 1
  | n + 1 => 10 * pow10 n

/-- Exact decimal number `m / 10^e`, the shape Python `Decimal` keeps. -/
structure Dec where
  m : Int
  e : Nat
deriving DecidableEq, Repr

def Dec.eqb (a b : Dec) : Bool :=
  a.m * pow10 b.e == b.m * pow10 a.e

def Dec.ltb (a b : Dec) : Bool :=
  decide (a.m * pow10 b.e < b.m * pow10 a.e)

def Dec.add (a b : Dec) : Dec :=
  ⟨a.m * pow10 (max a.e b.e - a.e) + b.m * pow10 (max a.e b.e - b.e), max a.e b.e⟩

def Dec.zero : Dec := ⟨0, 0⟩

/-- Rational value of an exact decimal. -/
def Dec.val (a : Dec) : ℚ := (a.m : ℚ) / (10 : ℚ) ^ a.e

theorem pow10_cast (e : Nat) : ((pow10 e : Int) : ℚ) = (10 : ℚ) ^ e := by
  induction e with
  | zero => simp [pow10]
  | succ n ih => simp [pow10, pow_succ]; rw [ih]; ring

theorem pow10_pos (e : Nat) : (0 : Int) < pow10 e := by
  induction e with
  | zero => simp [pow10]
  | succ n ih => simp only [pow10]; omega

theorem Dec.eqb_iff_val (a b : Dec) : a.eqb b = true ↔ a.val = b.val := by
  have ha : ((10 : ℚ) ^ a.e) ≠ 0 := by positivity
  have hb : ((10 : ℚ) ^ b.e) ≠ 0 := by positivity
  constructor
  · intro h
    have h' : a.m * pow10 b.e = b.m * pow10 a.e := by
      simpa [Dec.eqb] using h
    have h2 : ((a.m : ℚ)) * (10 : ℚ) ^ b.e = (b.m : ℚ) * (10 : ℚ) ^ a.e := by
      have := congrArg (fun z : Int => (z : ℚ)) h'
      push_cast at this
      rw [pow10_cast, pow10_cast] at this
      exact this
    unfold Dec.val
    field_simp
    linarith [h2]
  · intro h
    unfold Dec.val at h
    have h2 : ((a.m : ℚ)) * (10 : ℚ) ^ b.e = (b.m : ℚ) * (10 : ℚ) ^ a.e := by
      field_simp at h
      linarith [h]
    have h3 : ((a.m * pow10 b.e : Int) : ℚ) = ((b.m * pow10 a.e : Int) : ℚ) := by
      push_cast
      rw [pow10_cast, pow10_cast]
      exact h2
    have h4 : a.m * pow10 b.e = b.m * pow10 a.e := by exact_mod_cast h3
    simp [Dec.eqb, h4]

theorem Dec.val_add (a b : Dec) : (a.add b).val = a.val + b.val := by
  unfold Dec.val Dec.add
  have hle1 : a.e ≤ max a.e b.e := le_max_left _ _
  have hle2 : b.e ≤ max a.e b.e := le_max_right _ _
  have h1 : (10 : ℚ) ^ (max a.e b.e - a.e) * (10 : ℚ) ^ a.e = (10 : ℚ) ^ (max a.e b.e) := by
    rw [← pow_add]
    congr 1
    omega
  have h2 : (10 : ℚ) ^ (max a.e b.e - b.e) * (10 : ℚ) ^ b.e = (10 : ℚ) ^ (max a.e b.e) := by
    rw [← pow_add]
    congr 1
    omega
  have ha : ((10 : ℚ) ^ a.e) ≠ 0 := by positivity
  have hb : ((10 : ℚ) ^ b.e) ≠ 0 := by positivity
  have hm : ((10 : ℚ) ^ (max a.e b.e)) ≠ 0 := by positivity
  push_cast
  rw [pow10_cast, pow10_cast]
  field_simp
  linear_combination ((a.m : ℚ) * (10 : ℚ) ^ b.e) * h1 + ((b.m : ℚ) * (10 : ℚ) ^ a.e) * h2

/-! ## Calendar dates (model of Python `datetime.date`) -/

structure Date where
  y : Nat
  m : Nat
  d : Nat
deriving DecidableEq, Repr

/-! ## Decimal-string digits (model of Python `str` of an int) -/

def digitsRevAux : Nat → Nat → List Nat
  | 0, _ => []
  | fuel + 1, n => if n = 0 then [] else (n % 10) :: digitsRevAux fuel (n / 10)

def natChars (n : Nat) : List Char :=
  if n = 0 then ['0'] else ((digitsRevAux n n).map Nat.digitChar).reverse

/-- Decimal string of a natural number, as Python `str`/f-strings produce. -/
def natStr (n : Nat) : String := String.mk (natChars n)

def ofDigitsRev : List Nat → Nat
  | [] => 0
  | d :: rest => d + 10 * ofDigitsRev rest

theorem ofDigitsRev_digitsRevAux (fuel n : Nat) (h : n ≤ fuel) :
    ofDigitsRev (digitsRevAux fuel n) = n := by
  induction fuel generalizing n with
  | zero =>
    interval_cases n
    simp [digitsRevAux, ofDigitsRev]
  | succ f ih =>
    by_cases hn : n = 0
    · simp [digitsRevAux, hn, ofDigitsRev]
    · have hlt : n / 10 < n := Nat.div_lt_self (Nat.pos_of_ne_zero hn) (by omega)
      have hle : n / 10 ≤ f := by omega
      simp only [digitsRevAux, hn, if_false, ofDigitsRev]
      rw [ih _ hle]
      omega

theorem digitsRevAux_lt (fuel n : Nat) : ∀ d ∈ digitsRevAux fuel n, d < 10 := by
  induction fuel generalizing n with
  | zero => intro d hd; simp [digitsRevAux] at hd
  | succ f ih =>
    intro d hd
    by_cases hn : n = 0
    · simp [digitsRevAux, hn] at hd
    · simp only [digitsRevAux, hn, if_false, List.mem_cons] at hd
      rcases hd with h | h
      · omega
      · exact ih _ d h

theorem digitChar_inj : ∀ a, a < 10 → ∀ b, b < 10 → Nat.digitChar a = Nat.digitChar b → a = b := by
  decide

theorem digitChar_ne_dash : ∀ a, a < 10 → Nat.digitChar a ≠ '-' := by decide

theorem map_digitChar_inj (l1 l2 : List Nat) (h1 : ∀ d ∈ l1, d < 10) (h2 : ∀ d ∈ l2, d < 10)
    (h : l1.map Nat.digitChar = l2.map Nat.digitChar) : l1 = l2 := by
  induction l1 generalizing l2 with
  | nil => cases l2 <;> simp_all
  | cons a t ih =>
    cases l2 with
    | nil => simp_all
    | cons b t2 =>
      simp only [List.map_cons, List.cons.injEq] at h
      have ha : a < 10 := h1 a (by simp)
      have hb : b < 10 := h2 b (by simp)
      have hab : a = b := digitChar_inj a ha b hb h.1
      have ht : t = t2 := ih t2 (fun d hd => h1 d (List.mem_cons_of_mem a hd))
        (fun d hd => h2 d (List.mem_cons_of_mem b hd)) h.2
      simp [hab, ht]

theorem natChars_ne_dash (n : Nat) : ∀ c ∈ natChars n, c ≠ '-' := by
  intro c hc
  by_cases hn : n = 0
  · simp [natChars, hn] at hc
    simp [hc]
  · simp only [natChars, hn, if_false, List.mem_reverse, List.mem_map] at hc
    obtain ⟨d, hd, hdc⟩ := hc
    have : d < 10 := digitsRevAux_lt n n d hd
    rw [← hdc]
    exact digitChar_ne_dash d this

theorem natChars_inj (m n : Nat) (h : natChars m = natChars n) : m = n := by
  by_cases hm : m = 0 <;> by_cases hn : n = 0
  · omega
  · exfalso
    simp only [natChars, hm, hn, if_true, if_false] at h
    have h' : (digitsRevAux n n).map Nat.digitChar = ['0'] := by
      have := congrArg List.reverse h
      simpa using this.symm
    rcases hdig : (digitsRevAux n n).map Nat.digitChar with _ | ⟨c, rest⟩
    · rw [hdig] at h'; simp at h'
    · rw [hdig] at h'
      rcases hl : digitsRevAux n n with _ | ⟨d, drest⟩
      · rw [hl] at hdig; simp at hdig
      · rw [hl] at hdig
        simp only [List.map_cons, List.cons.injEq] at hdig h'
        have hd10 : d < 10 := digitsRevAux_lt n n d (by rw [hl]; simp)
        have hd0 : d = 0 := by
          have : Nat.digitChar d = '0' := by rw [hdig.1, h'.1]
          exact digitChar_inj d hd10 0 (by omega) (by simpa using this)
        have hrest : drest = [] := by
          have : rest = [] := h'.2
          have h2 := hdig.2
          rw [this] at h2
          simpa using h2
        have hofn : ofDigitsRev (digitsRevAux n n) = n := ofDigitsRev_digitsRevAux n n (le_refl n)
        rw [hl, hd0, hrest] at hofn
        simp [ofDigitsRev] at hofn
        omega
  · exfalso
    simp only [natChars, hm, hn, if_true, if_false] at h
    have h' : (digitsRevAux m m).map Nat.digitChar = ['0'] := by
      have := congrArg List.reverse h
      simpa using this
    rcases hl : digitsRevAux m m with _ | ⟨d, drest⟩
    · rw [hl] at h'; simp at h'
    · rw [hl] at h'
      simp only [List.map_cons, List.cons.injEq] at h'
      have hd10 : d < 10 := digitsRevAux_lt m m d (by rw [hl]; simp)
      have hd0 : d = 0 := digitChar_inj d hd10 0 (by omega) (by simpa using h'.1)
      have hrest : drest = [] := by
        have := h'.2
        simpa using this
      have hofm : ofDigitsRev (digitsRevAux m m) = m := ofDigitsRev_digitsRevAux m m (le_refl m)
      rw [hl, hd0, hrest] at hofm
      simp [ofDigitsRev] at hofm
      omega
  · simp only [natChars, hm, hn, if_false] at h
    have h2 : (digitsRevAux m m).map Nat.digitChar = (digitsRevAux n n).map Nat.digitChar := by
      have := congrArg List.reverse h
      simpa using this
    have h3 : digitsRevAux m m = digitsRevAux n n :=
      map_digitChar_inj _ _ (digitsRevAux_lt m m) (digitsRevAux_lt n n) h2
    have h4 := ofDigitsRev_digitsRevAux m m (le_refl m)
    have h5 := ofDigitsRev_digitsRevAux n n (le_refl n)
    rw [h3, h5] at h4
    omega

theorem natStr_inj (m n : Nat) (h : natStr m = natStr n) : m = n := by
  apply natChars_inj
  have := congrArg String.data h
  simpa [natStr] using this

/-- Separator splitting is unambiguous when neither left part holds the separator. -/
theorem append_dash_inj (l1 : List Char) :
    ∀ (l2 r1 r2 : List Char), (∀ c ∈ l1, c ≠ '-') → (∀ c ∈ l2, c ≠ '-') →
    l1 ++ '-' :: r1 = l2 ++ '-' :: r2 → l1 = l2 ∧ r1 = r2 := by
  induction l1 with
  | nil =>
    intro l2 r1 r2 _ h2 h
    cases l2 with
    | nil => simpa using h
    | cons c t =>
      exfalso
      simp only [List.nil_append, List.cons_append, List.cons.injEq] at h
      exact h2 c (by simp) h.1.symm
  | cons c t ih =>
    intro l2 r1 r2 h1 h2 h
    cases l2 with
    | nil =>
      exfalso
      simp only [List.cons_append, List.nil_append, List.cons.injEq] at h
      exact h1 c (by simp) h.1
    | cons c2 t2 =>
      simp only [List.cons_append, List.cons.injEq] at h
      have := ih t2 r1 r2 (fun x hx => h1 x (by simp [hx])) (fun x hx => h2 x (by simp [hx])) h.2
      exact ⟨by simp [h.1, this.1], this.2⟩

/-- Unique id built by the import for a persisted item:
`f"IMP-{import_tracker.pk}-{sequence_number}"`. -/
def mkUid (tracker seq : Nat) : String :=
  "IMP-" ++ natStr tracker ++ "-" ++ natStr seq

theorem mkUid_tracker_inj (t1 s1 t2 s2 : Nat) (h : mkUid t1 s1 = mkUid t2 s2) : t1 = t2 := by
  have hd := congrArg String.data h
  simp only [mkUid, natStr, String.data_append] at hd
  have hd2 : natChars t1 ++ '-' :: natChars s1 = natChars t2 ++ '-' :: natChars s2 := by
    have h4 : ['I', 'M', 'P', '-'] ++ (natChars t1 ++ '-' :: natChars s1) =
        ['I', 'M', 'P', '-'] ++ (natChars t2 ++ '-' :: natChars s2) := by
      simpa [List.append_assoc] using hd
    exact List.append_cancel_left h4
  have := append_dash_inj (natChars t1) (natChars t2) (natChars s1) (natChars s2)
    (natChars_ne_dash t1) (natChars_ne_dash t2) hd2
  exact natChars_inj t1 t2 this.1

/-! ## Persisted data model (Django ORM state) -/

/-- Persisted `BudgetItem` row; fields not reachable from the import
pipeline (vendor link, breakout tree, timestamps) are omitted. -/
structure BudgetItem where
  pk : Nat
  budget : Nat
  date : Date
  posted_date : Date
  description : String
  monitary_value : Dec
  sequence_number : Nat
  unique_id : String
  running_balance : Dec
  imported : Bool
  import_source : String
  reference_number : String
  member : Option String
  source : Option String
  categories : List String
deriving DecidableEq, Repr

/-- Per-budget state: the sequence counter and the tag collections. -/
structure BudgetRec where
  current_sequence_number : Nat
  categories : List String
  members : List String
  sources : List String
deriving DecidableEq, Repr

/-- Persisted `ImportTracker` row. -/
structure Tracker where
  pk : Nat
  budget : Nat
  file_name : String
  file_type : String
  items_imported : Nat
  duplicates_found : Nat
  source_name : String
deriving DecidableEq, Repr

/-- Database state: item table, reference-entity name tables, budgets,
tracker table and the primary-key counters the ORM assigns from. -/
structure DB where
  items : List BudgetItem
  categories : List String
  members : List String
  sources : List String
  budgets : Nat → BudgetRec
  trackers : List Tracker
  next_tracker_pk : Nat
  next_item_pk : Nat

def updateBudget (db : DB) (bid : Nat) (b : BudgetRec) : DB :=
  { db with budgets := fun x => if x = bid then b else db.budgets x }

/-- Items of one budget (`BudgetItem.objects.filter(budget=...)`). -/
def itemsOf (db : DB) (bid : Nat) : List BudgetItem :=
  db.items.filter (fun it => it.budget == bid)

/-- Normalized transaction record handed from the parsers to the import
engine.  The empty string stands for a missing optional text value,
matching the Python falsy-string convention. -/
structure TransRec where
  date : Date
  description : String
  amount : Dec
  category : String
  member : String
  source : String
  reference_number : String
deriving DecidableEq, Repr

/-- `Budget.get_next_sequence_number`: increment and persist the
per-budget counter, return the new value. -/
def Budget.get_next_sequence_number (db : DB) (bid : Nat) : Nat × DB :=
  let b := db.budgets bid
  let n := b.current_sequence_number + 1
  (n, updateBudget db bid { b with current_sequence_number := n })

/-! ## Import service -/

/-- `ImportService._is_duplicate`: a persisted item of the budget with
the same date, amount and description exists. -/
def is_duplicate (db : DB) (bid : Nat) (t : TransRec) : Bool :=
  db.items.any (fun it =>
    it.budget == bid && it.date == t.date &&
    it.monitary_value.eqb t.amount && it.description == t.description)

/-- `ImportService._get_or_create_category`; the returned entity is its
name.  Falsy name yields `none` with the state untouched. -/
def get_or_create_category (db : DB) (bid : Nat) (category_name : String) :
    Option String × DB :=
  if category_name = "" then (none, db)
  else
    let db1 := if db.categories.contains category_name then db
               else { db with categories := db.categories ++ [category_name] }
    let b := db1.budgets bid
    let db2 := if b.categories.contains category_name then db1
               else updateBudget db1 bid { b with categories := b.categories ++ [category_name] }
    (some category_name, db2)

/-- `ImportService._get_or_create_member`. -/
def get_or_create_member (db : DB) (bid : Nat) (member_name : String) :
    Option String × DB :=
  if member_name = "" then (none, db)
  else
    let db1 := if db.members.contains member_name then db
               else { db with members := db.members ++ [member_name] }
    let b := db1.budgets bid
    let db2 := if b.members.contains member_name then db1
               else updateBudget db1 bid { b with members := b.members ++ [member_name] }
    (some member_name, db2)

/-- `ImportService._get_or_create_source`. -/
def get_or_create_source (db : DB) (bid : Nat) (source_name : String) :
    Option String × DB :=
  if source_name = "" then (none, db)
  else
    let db1 := if db.sources.contains source_name then db
               else { db with sources := db.sources ++ [source_name] }
    let b := db1.budgets bid
    let db2 := if b.sources.contains source_name then db1
               else updateBudget db1 bid { b with sources := b.sources ++ [source_name] }
    (some source_name, db2)

structure Stats where
  total : Nat
  imported : Nat
  duplicates : Nat
  errors : Nat
  skipped : Nat
deriving DecidableEq, Repr

structure DupEntry where
  row : Nat
  description : String
  date : Date
  amount : Dec
deriving DecidableEq, Repr

structure ImportResult where
  success : Bool
  stats : Stats
  errors : List String
  duplicates : List DupEntry
  import_tracker_id : Nat
deriving DecidableEq, Repr

/-- Mutable state of the per-record import loop. -/
structure LoopSt where
  db : DB
  stats : Stats
  errors : List String
  duplicates : List DupEntry

/-- The entity-resolution and item-creation steps of one loop iteration
of `ImportService.import_transactions`: resolve member/source, draw the
next sequence number, build and persist the `BudgetItem`.  Returns the
new database and the created item. -/
def create_item (bid : Nat) (file_name : String) (tracker_pk : Nat)
    (t : TransRec) (cname : String) (db1 : DB) : DB × BudgetItem :=
  let mres := if t.member ≠ "" then get_or_create_member db1 bid t.member else (none, db1)
  let sres := if t.source ≠ "" then get_or_create_source mres.2 bid t.source else (none, mres.2)
  let seqres := Budget.get_next_sequence_number sres.2 bid
  let db4 := seqres.2
  let seq := seqres.1
  let item : BudgetItem :=
    { pk := db4.next_item_pk
      budget := bid
      date := t.date
      posted_date := t.date
      description := t.description
      monitary_value := t.amount
      sequence_number := seq
      unique_id := mkUid tracker_pk seq
      running_balance := ⟨0, 0⟩
      imported := true
      import_source := file_name
      reference_number := t.reference_number
      member := mres.1
      source := sres.1
      categories := [cname] }
  ({ db4 with items := db4.items ++ [item], next_item_pk := db4.next_item_pk + 1 }, item)

/-- One iteration of the import loop of `ImportService.import_transactions`. -/
def process_one (bid : Nat) (file_name : String) (tracker_pk : Nat)
    (idx : Nat) (t : TransRec) (st : LoopSt) : LoopSt :=
  if is_duplicate st.db bid t then
    { st with
      stats := { st.stats with duplicates := st.stats.duplicates + 1 },
      duplicates := st.duplicates ++ [⟨idx, t.description, t.date, t.amount⟩] }
  else
    match get_or_create_category st.db bid t.category with
    | (none, db1) =>
      { st with
        db := db1,
        stats := { st.stats with errors := st.stats.errors + 1 },
        errors := st.errors ++ ["Row " ++ natStr idx ++ ": Could not create category"] }
    | (some cname, db1) =>
      let r := create_item bid file_name tracker_pk t cname db1
      { db := r.1
        stats := { st.stats with imported := st.stats.imported + 1 }
        errors := st.errors
        duplicates := st.duplicates }

/-- The per-record loop of `import_transactions` (`enumerate(..., start=1)`). -/
def run_loop (bid : Nat) (file_name : String) (tracker_pk : Nat) :
    Nat → List TransRec → LoopSt → LoopSt
  | _, [], st => st
  | idx, t :: ts, st =>
    run_loop bid file_name tracker_pk (idx + 1) ts (process_one bid file_name tracker_pk idx t st)

/-! ## Running-balance recompute -/

/-- DB ordering key of `order_by("date", "sequence_number")`. -/
def itemLe (a b : BudgetItem) : Prop :=
  a.date.y < b.date.y ∨ (a.date.y = b.date.y ∧
    (a.date.m < b.date.m ∨ (a.date.m = b.date.m ∧
      (a.date.d < b.date.d ∨ (a.date.d = b.date.d ∧
        a.sequence_number ≤ b.sequence_number)))))

instance : DecidableRel itemLe := fun a b =>
  inferInstanceAs (Decidable (a.date.y < b.date.y ∨ (a.date.y = b.date.y ∧
    (a.date.m < b.date.m ∨ (a.date.m = b.date.m ∧
      (a.date.d < b.date.d ∨ (a.date.d = b.date.d ∧
        a.sequence_number ≤ b.sequence_number)))))))

instance : IsTotal BudgetItem itemLe :=
  ⟨fun a b => by unfold itemLe; omega⟩

instance : IsTrans BudgetItem itemLe :=
  ⟨fun a b c h1 h2 => by unfold itemLe at h1 h2 ⊢; omega⟩

def itemKey (a : BudgetItem) : Nat × Nat × Nat × Nat :=
  (a.date.y, a.date.m, a.date.d, a.sequence_number)

theorem itemLe_antisymm_key (a b : BudgetItem) (h1 : itemLe a b) (h2 : itemLe b a) :
    itemKey a = itemKey b := by
  unfold itemLe at h1 h2
  unfold itemKey
  simp only [Prod.mk.injEq]
  omega

/-- The accumulator scan of `_recalculate_running_balances`: walk the
ordered items, add each amount, record the balance to write per item pk. -/
def scanB (acc : Dec) : List BudgetItem → List (Nat × Dec)
  | [] => []
  | it :: rest => (it.pk, acc.add it.monitary_value) :: scanB (acc.add it.monitary_value) rest

/-- `ImportService._recalculate_running_balances`: full recompute over
the budget's items ordered by `(date, sequence_number)`, starting from
`Decimal("0.00")`, persisting each item's new balance. -/
def applyBalance (assigns : List (Nat × Dec)) (it : BudgetItem) : BudgetItem :=
  match assigns.lookup it.pk with
  | some b => { it with running_balance := b }
  | none => it

def recalculate_running_balances (db : DB) (bid : Nat) : DB :=
  let sorted := List.insertionSort itemLe (itemsOf db bid)
  let assigns := scanB ⟨0, 2⟩ sorted
  { db with items := db.items.map (applyBalance assigns) }

/-- `ImportService.import_transactions`. -/
def import_transactions (db : DB) (bid : Nat) (transactions : List TransRec)
    (file_name : String) (file_type : String) : DB × ImportResult :=
  let stats0 : Stats := ⟨transactions.length, 0, 0, 0, 0⟩
  let tracker_pk := db.next_tracker_pk
  let tracker : Tracker :=
    ⟨tracker_pk, bid, file_name, file_type, 0, 0, "Bulk Upload: " ++ file_name⟩
  let db0 := { db with trackers := db.trackers ++ [tracker], next_tracker_pk := tracker_pk + 1 }
  let st := run_loop bid file_name tracker_pk 1 transactions ⟨db0, stats0, [], []⟩
  let db1 := { st.db with trackers := st.db.trackers.map (fun tr =>
      if tr.pk = tracker_pk then
        { tr with items_imported := st.stats.imported, duplicates_found := st.stats.duplicates }
      else tr) }
  let db2 := recalculate_running_balances db1 bid
  (db2,
    { success := (st.stats.errors == 0) || (decide (0 < st.stats.imported))
      stats := st.stats
      errors := st.errors
      duplicates := st.duplicates
      import_tracker_id := tracker_pk })

/-! ## Preview engine -/

structure PreviewItem where
  row : Nat
  date : Date
  description : String
  amount : Dec
  category : String
  member : String
  source : String
  reference_number : String
  is_duplicate : Bool
  category_will_be_created : Bool
deriving DecidableEq, Repr

structure PreviewWarning where
  wtype : String
  message : String
deriving DecidableEq, Repr

structure PreviewResult where
  total_count : Nat
  preview_count : Nat
  preview_items : List PreviewItem
  warnings : List PreviewWarning
  duplicates : List DupEntry
  total_duplicates : Nat
  will_import : Nat
  missing_categories : List String
deriving DecidableEq, Repr

/-- The per-row pass of `preview_import` over the first `limit` records:
builds preview rows and the previewed-duplicate list, and accumulates the
set of category names that do not exist yet (insertion order). -/
def preview_rows (db : DB) (bid : Nat) :
    Nat → List TransRec → List String → List PreviewItem × List DupEntry × List String
  | _, [], missing => ([], [], missing)
  | idx, t :: ts, missing =>
    let isdup := is_duplicate db bid t
    let cat_exists := db.categories.contains t.category
    let missing2 :=
      if t.category ≠ "" ∧ cat_exists = false then
        (if missing.contains t.category then missing else missing ++ [t.category])
      else missing
    let pitem : PreviewItem :=
      { row := idx
        date := t.date
        description := t.description
        amount := t.amount
        category := t.category
        member := t.member
        source := t.source
        reference_number := t.reference_number
        is_duplicate := isdup
        category_will_be_created := (cat_exists = false) ∧ t.category ≠ "" }
    let rest := preview_rows db bid (idx + 1) ts missing2
    (pitem :: rest.1,
     (if isdup then [(⟨idx, t.description, t.date, t.amount⟩ : DupEntry)] else []) ++ rest.2.1,
     rest.2.2)

/-- `ImportService.preview_import`: a read-only dry run.  The state
component of the result is the database the call leaves behind. -/
def preview_import (db : DB) (bid : Nat) (transactions : List TransRec)
    (preview_limit : Nat) : DB × PreviewResult :=
  let total_count := transactions.length
  let rows := preview_rows db bid 1 (transactions.take preview_limit) []
  let preview_items := rows.1
  let duplicates := rows.2.1
  let missing_categories := rows.2.2
  let warnings :=
    (if missing_categories ≠ [] then
      [(⟨"info", "New categories will be created: " ++
        String.intercalate ", " (List.insertionSort (fun a b : String => a ≤ b) missing_categories)⟩ : PreviewWarning)]
     else []) ++
    (if duplicates ≠ [] then
      [(⟨"warning", natStr duplicates.length ++ " potential duplicate(s) found (will be skipped)"⟩ : PreviewWarning)]
     else [])
  let total_duplicates := (transactions.filter (fun t => is_duplicate db bid t)).length
  (db,
    { total_count := total_count
      preview_count := preview_items.length
      preview_items := preview_items
      warnings := warnings
      duplicates := duplicates
      total_duplicates := total_duplicates
      will_import := total_count - total_duplicates
      missing_categories := missing_categories })

/-! ## Database well-formedness -/

/-- State invariant the persisted tables maintain: primary keys are
unique and below the pk counter; within any one budget, sequence numbers
are unique and no item is ahead of its budget's sequence counter. -/
def WF (db : DB) : Prop :=
  (db.items.map (fun it => it.pk)).Nodup ∧
  (∀ it ∈ db.items, it.pk < db.next_item_pk) ∧
  List.Pairwise (fun a b : BudgetItem =>
    a.budget = b.budget → a.sequence_number ≠ b.sequence_number) db.items ∧
  (∀ it ∈ db.items, it.sequence_number ≤ (db.budgets it.budget).current_sequence_number)

instance WF_dec (db : DB) : Decidable (WF db) :=
  inferInstanceAs (Decidable ((db.items.map (fun it : BudgetItem => it.pk)).Nodup ∧
    (∀ it ∈ db.items, it.pk < db.next_item_pk) ∧
    List.Pairwise (fun a b : BudgetItem =>
      a.budget = b.budget → a.sequence_number ≠ b.sequence_number) db.items ∧
    (∀ it ∈ db.items, it.sequence_number ≤ (db.budgets it.budget).current_sequence_number)))

/-! ## Shared text helpers (Python `str.strip`, `lower`, `upper`) -/

def trimChars (l : List Char) : List Char :=
  ((l.dropWhile Char.isWhitespace).reverse.dropWhile Char.isWhitespace).reverse

def trimStr (s : String) : String := String.mk (trimChars s.data)

def lowerStr (s : String) : String := String.mk (s.data.map Char.toLower)

def upperStr (s : String) : String := String.mk (s.data.map Char.toUpper)

def digitsVal (l : List Char) : Nat :=
  l.foldl (fun a c => 10 * a + (c.toNat - 48)) 0

def splitOnChar (sep : Char) : List Char → List (List Char)
  | [] => [[]]
  | c :: cs =>
    match splitOnChar sep cs with
    | [] => [[]]
    | h :: t => if c = sep then [] :: h :: t else (c :: h) :: t

/-! ## Date-string parsing (`_parse_date` of the CSV and XML parsers) -/

/-- The six `strptime` formats of the parsers' `date_formats` lists. -/
inductive DFmt where
  | ymd_dash
  | mdy_slash
  | dmy_slash
  | ymd_slash
  | mdy_dash
  | dmy_dash
deriving DecidableEq, Repr

def DFmt.sep : DFmt → Char
  | .ymd_dash => '-'
  | .mdy_slash => '/'
  | .dmy_slash => '/'
  | .ymd_slash => '/'
  | .mdy_dash => '-'
  | .dmy_dash => '-'

/-- Field arrangement: given the three separated parts in order, return
them as `(year, month, day)` strings per the format. -/
def DFmt.assemble : DFmt → List Char → List Char → List Char →
    List Char × List Char × List Char
  | .ymd_dash, a, b, c => (a, b, c)
  | .ymd_slash, a, b, c => (a, b, c)
  | .mdy_slash, a, b, c => (c, a, b)
  | .mdy_dash, a, b, c => (c, a, b)
  | .dmy_slash, a, b, c => (c, b, a)
  | .dmy_dash, a, b, c => (c, b, a)

/-- `strptime` `%Y`: exactly four digits. -/
def parse_year4 (l : List Char) : Option Nat :=
  if l.length = 4 ∧ l.all Char.isDigit = true then some (digitsVal l) else none

/-- `strptime` `%m` / `%d`: one or two digits in `1..hi`. -/
def parse_field2 (hi : Nat) (l : List Char) : Option Nat :=
  if l ≠ [] ∧ l.length ≤ 2 ∧ l.all Char.isDigit = true ∧
      1 ≤ digitsVal l ∧ digitsVal l ≤ hi then
    some (digitsVal l)
  else none

def leap (y : Nat) : Bool :=
  y % 4 == 0 && (y % 100 != 0 || y % 400 == 0)

def days_in_month (y m : Nat) : Nat :=
  if m = 2 then (if leap y then 29 else 28)
  else if m = 4 ∨ m = 6 ∨ m = 9 ∨ m = 11 then 30
  else 31

/-- Calendar validity enforced by `datetime.date` (year within range,
day within the month). -/
def valid_date (y m d : Nat) : Bool :=
  decide (1 ≤ y ∧ 1 ≤ d ∧ d ≤ days_in_month y m)

/-- One `datetime.strptime(date_str, fmt).date()` attempt. -/
def strptime_date (f : DFmt) (s : String) : Option Date :=
  match splitOnChar f.sep s.data with
  | [a, b, c] =>
    let parts := f.assemble a b c
    match parse_year4 parts.1, parse_field2 12 parts.2.1, parse_field2 31 parts.2.2 with
    | some y, some mo, some dy =>
      if valid_date y mo dy then some ⟨y, mo, dy⟩ else none
    | _, _, _ => none
  | _ => none

/-- `date_formats` of `CSVParser._parse_date`. -/
def csv_date_formats : List DFmt :=
  [.ymd_dash, .mdy_slash, .dmy_slash, .ymd_slash, .mdy_dash, .dmy_dash]

/-- `date_formats` of `XMLParser._parse_date`. -/
def xml_date_formats : List DFmt :=
  [.ymd_dash, .mdy_slash, .dmy_slash, .ymd_slash, .mdy_dash, .dmy_dash]

/-- The format loop: first successful parse wins. -/
def try_formats : List DFmt → String → Option Date
  | [], _ => none
  | f :: rest, s =>
    match strptime_date f s with
    | some d => some d
    | none => try_formats rest s

/-- `CSVParser._parse_date` (date value; the error string is emitted by
the caller when the result is `none`). -/
def csv_parse_date (s : String) : Option Date := try_formats csv_date_formats s

/-- `XMLParser._parse_date`. -/
def xml_parse_date (s : String) : Option Date := try_formats xml_date_formats s

/-! ## Amount parsing (`_parse_amount`, shared text of both parsers) -/

def allDigits (l : List Char) : Bool := l.all Char.isDigit

/-- Core `Decimal(str)` constructor on plain decimal literals (optional
sign, digits, optional single point; scientific notation is outside the
inputs this pipeline feeds it). -/
def parse_unsigned_decimal (l : List Char) (sign : Int) : Option Dec :=
  match splitOnChar '.' l with
  | [ip] => if ip ≠ [] ∧ allDigits ip = true then some ⟨sign * (digitsVal ip : Int), 0⟩ else none
  | [ip, fp] =>
    if (ip ++ fp) ≠ [] ∧ allDigits (ip ++ fp) = true then
      some ⟨sign * (digitsVal (ip ++ fp) : Int), fp.length⟩
    else none
  | _ => none

def parse_decimal_chars : List Char → Option Dec
  | '-' :: r => parse_unsigned_decimal r (-1)
  | '+' :: r => parse_unsigned_decimal r 1
  | r => parse_unsigned_decimal r 1

/-- `_parse_amount`: strip `$` and `,`, whitespace-trim, parse exactly.
The CSV and XML parsers carry identical copies of this helper. -/
def parse_amount (s : String) : Option Dec :=
  parse_decimal_chars (trimChars (s.data.filter (fun c => !(c == '$' || c == ','))))

/-! ## CSV parser (`CSVParser.parse`) -/

/-- A `csv.DictReader` row: field name to raw cell text. -/
abbrev RawRow : Type := List (String × String)

/-- Python dict-comprehension insert: a repeated key keeps its first
position and takes the latest value. -/
def dictInsert (m : List (String × String)) (k v : String) : List (String × String) :=
  if m.any (fun kv => kv.1 == k) then
    m.map (fun kv => if kv.1 == k then (k, v) else kv)
  else m ++ [(k, v)]

/-- `{k.lower().strip(): v.strip() for k, v in row.items()}`. -/
def normalizeRow (row : RawRow) : RawRow :=
  row.foldl (fun m kv => dictInsert m (trimStr (lowerStr kv.1)) (trimStr kv.2)) []

/-- `row.get(key, "")`. -/
def rowGet (row : RawRow) (k : String) : String :=
  match row.find? (fun kv => kv.1 == k) with
  | some kv => kv.2
  | none => ""

def hdr_date : String := "date"
def hdr_description : String := "description"
def hdr_amount : String := "amount"
def hdr_category : String := "category"
def hdr_member : String := "member"
def hdr_source : String := "source"
def hdr_ref : String := "reference_number"

def required_headers : List String := [hdr_date, hdr_description, hdr_amount, hdr_category]

def rowMsg (n : Nat) (tail : String) : String := "Row " ++ natStr n ++ tail

structure CSVOut where
  records : List TransRec
  errors : List String
deriving DecidableEq, Repr

/-- `CSVParser._parse_row`. -/
def csv_parse_row (row : RawRow) (row_num : Nat) : Option TransRec × List String :=
  let nr := normalizeRow row
  if nr.all (fun kv => kv.2 == "") then (none, [])
  else
    let date_str := rowGet nr hdr_date
    if date_str = "" then (none, [rowMsg row_num (": Date is required")])
    else
      match csv_parse_date date_str with
      | none => (none, [rowMsg row_num (": Invalid date format")])
      | some dt =>
        let description := trimStr (rowGet nr hdr_description)
        if description = "" then (none, [rowMsg row_num (": Description is required")])
        else
          let amount_str := rowGet nr hdr_amount
          if amount_str = "" then (none, [rowMsg row_num (": Amount is required")])
          else
            match parse_amount amount_str with
            | none => (none, [rowMsg row_num (": Invalid amount")])
            | some amt =>
              let category := trimStr (rowGet nr hdr_category)
              if category = "" then (none, [rowMsg row_num (": Category is required")])
              else
                (some { date := dt
                        description := description
                        amount := amt
                        category := category
                        member := trimStr (rowGet nr hdr_member)
                        source := trimStr (rowGet nr hdr_source)
                        reference_number := trimStr (rowGet nr hdr_ref) }, [])

/-- The per-row loop (`enumerate(reader, start=2)`). -/
def csv_parse_rows : Nat → List RawRow → List TransRec × List String
  | _, [] => ([], [])
  | rn, row :: rest =>
    let r := csv_parse_row row rn
    let tail := csv_parse_rows (rn + 1) rest
    ((match r.1 with | some t => [t] | none => []) ++ tail.1, r.2 ++ tail.2)

/-- `CSVParser.parse`, taken at the `DictReader` boundary: the header
list (`reader.fieldnames`, `none` when the input has no rows) plus the
data rows. -/
def csv_parse (fieldnames : Option (List String)) (rows : List RawRow) : CSVOut :=
  match fieldnames with
  | none => ⟨[], ["CSV file is empty or has no headers"]⟩
  | some fns =>
    if fns = [] then ⟨[], ["CSV file is empty or has no headers"]⟩
    else
      let headers := fns.map (fun h => trimStr (lowerStr h))
      if required_headers.all (fun h => headers.contains h) then
        let pr := csv_parse_rows 2 rows
        ⟨pr.1, pr.2⟩
      else
        ⟨[], ["Missing required columns: " ++
          String.intercalate (", ") (required_headers.filter (fun h => !(headers.contains h)))]⟩

/-! ## XML parser (`XMLParser.parse`) -/

/-- A parsed XML element (`xml.etree` node): tag, text content (empty
string when absent) and child elements. -/
inductive Element where
  | mk (tag : String) (text : String) (children : List Element)

def Element.tag : Element → String
  | .mk t _ _ => t

def Element.text : Element → String
  | .mk _ x _ => x

def Element.children : Element → List Element
  | .mk _ _ c => c

/-- All elements of a forest in document order, each followed by its
own descendants (the `.//` axis applied below a root). -/
def descList : List Element → List Element
  | [] => []
  | Element.mk t x cs :: rest => Element.mk t x cs :: (descList cs ++ descList rest)

/-- `root.findall(".//transaction")`. -/
def find_transactions (root : Element) : List Element :=
  (descList root.children).filter (fun e => e.tag == "transaction")

/-- `elem.find(tag)`: first direct child with the tag. -/
def elem_find (e : Element) (tg : String) : Option Element :=
  e.children.find? (fun c => c.tag == tg)

/-- `elem.find(tag)` followed by the `is None or not .text` falsiness
check the parser applies to required and optional children alike. -/
def xml_findtext (e : Element) (tg : String) : Option String :=
  match elem_find e tg with
  | none => none
  | some c => if c.text = "" then none else some c.text

def txnMsg (n : Nat) (tail : String) : String := "Transaction " ++ natStr n ++ tail

structure XMLOut where
  records : List TransRec
  errors : List String
  warnings : List String

/-- `XMLParser._parse_transaction`. -/
def xml_parse_transaction (e : Element) (tn : Nat) : Option TransRec × List String :=
  match xml_findtext e hdr_date with
  | none => (none, [txnMsg tn (": Date is required")])
  | some ds =>
    match xml_parse_date (trimStr ds) with
    | none => (none, [txnMsg tn (": Invalid date format")])
    | some dt =>
      match xml_findtext e hdr_description with
      | none => (none, [txnMsg tn (": Description is required")])
      | some desc =>
        match xml_findtext e hdr_amount with
        | none => (none, [txnMsg tn (": Amount is required")])
        | some ams =>
          match parse_amount (trimStr ams) with
          | none => (none, [txnMsg tn (": Invalid amount")])
          | some amt =>
            match xml_findtext e hdr_category with
            | none => (none, [txnMsg tn (": Category is required")])
            | some cat =>
              (some { date := dt
                      description := trimStr desc
                      amount := amt
                      category := trimStr cat
                      member := (match xml_findtext e hdr_member with
                                 | some s => trimStr s
                                 | none => "")
                      source := (match xml_findtext e hdr_source with
                                 | some s => trimStr s
                                 | none => "")
                      reference_number := (match xml_findtext e hdr_ref with
                                           | some s => trimStr s
                                           | none => "") }, [])

/-- The per-element loop (`enumerate(transaction_elements, start=1)`). -/
def xml_parse_elems : Nat → List Element → List TransRec × List String
  | _, [] => ([], [])
  | tn, e :: rest =>
    let r := xml_parse_transaction e tn
    let tail := xml_parse_elems (tn + 1) rest
    ((match r.1 with | some t => [t] | none => []) ++ tail.1, r.2 ++ tail.2)

/-- `XMLParser.parse` on a well-formed document. -/
def xml_parse (root : Element) : XMLOut :=
  let trs := find_transactions root
  if trs.isEmpty then ⟨[], ["No transactions found in XML file"], []⟩
  else
    let pr := xml_parse_elems 1 trs
    ⟨pr.1, pr.2, []⟩

/-! ## OFX parser (`OFXParser.parse`) -/

/-- An `ofxparse` transaction object; empty strings stand for absent or
falsy attribute values. -/
structure OfxTxn where
  date : Option Date
  amount : Option Dec
  payee : String
  memo : String
  ttype : String
  tid : String
  checknum : String
deriving DecidableEq, Repr

structure OfxStatement where
  transactions : List OfxTxn
deriving DecidableEq, Repr

structure OfxAccount where
  statement : Option OfxStatement
deriving DecidableEq, Repr

structure OFXOut where
  records : List TransRec
  errors : List String
  warnings : List String
deriving DecidableEq, Repr

/-- Python substring containment (`needle in haystack`). -/
def listInfix (n : List Char) : List Char → Bool
  | [] => n.isEmpty
  | c :: t => n.isPrefixOf (c :: t) || listInfix n t

/-- Description synthesis of `OFXParser._parse_transaction`: payee, then
memo when new information, else the transaction type, else a literal. -/
def ofx_description_parts (t : OfxTxn) : List String :=
  let p1 := if t.payee ≠ "" then [trimStr t.payee] else []
  let p2 :=
    if t.memo ≠ "" then
      (if p1 = [] ∨ ¬ (listInfix (trimStr t.memo).data (p1.headD "").data = true) then
        p1 ++ [trimStr t.memo]
      else p1)
    else p1
  if p2 = [] then (if t.ttype ≠ "" then [t.ttype] else []) else p2

def ofx_description (t : OfxTxn) : String :=
  let parts := ofx_description_parts t
  if parts = [] then "Transaction" else String.intercalate (" - ") parts

/-- `OFXParser._get_description_text`. -/
def get_description_text (t : OfxTxn) : String :=
  String.intercalate (" ")
    ((if t.payee ≠ "" then [t.payee] else []) ++ (if t.memo ≠ "" then [t.memo] else []))

def containsAny (d : String) (ws : List String) : Bool :=
  ws.any (fun w => listInfix w.data d.data)

/-- `OFXParser._determine_category`: keyword heuristics, first match wins. -/
def determine_category (t : OfxTxn) : String :=
  let tt := if t.ttype ≠ "" then upperStr t.ttype else ""
  let amount := match t.amount with | some a => a | none => ⟨0, 0⟩
  if tt = "CHECK" then "Check"
  else if tt = "DEBIT" ∨ amount.ltb ⟨0, 0⟩ = true then
    let d := upperStr (get_description_text t)
    if containsAny d ["GROCERY", "KROGER", "WALMART", "TARGET"] then "Groceries"
    else if containsAny d ["RESTAURANT", "FOOD", "CAFE", "MCDONALD", "BURGER", "PIZZA"] then "Food & Dining"
    else if containsAny d ["GAS", "FUEL", "EXXON", "SHELL", "CHEVRON", "MOBIL"] then "Gas & Fuel"
    else if containsAny d ["PHARMACY", "CVS", "WALGREEN", "MEDICAL", "DOCTOR", "HOSPITAL"] then "Healthcare"
    else if containsAny d ["ELECTRIC", "WATER", "GAS", "UTILITY", "COMCAST", "AT&T", "PHONE"] then "Utilities"
    else if containsAny d ["AMAZON", "EBAY", "SHOPPING"] then "Shopping"
    else "Expenses"
  else if tt = "CREDIT" ∨ Dec.ltb ⟨0, 0⟩ amount = true then
    let d := upperStr (get_description_text t)
    if containsAny d ["DEPOSIT"] ∨ containsAny d ["PAYCHECK"] ∨ containsAny d ["SALARY"] then "Income"
    else if containsAny d ["PAYMENT"] ∨ containsAny d ["AUTOPAY"] then "Payment"
    else "Income"
  else
    if amount.ltb ⟨0, 0⟩ then "Expenses" else "Income"

/-- `OFXParser._parse_transaction`. -/
def ofx_parse_transaction (t : OfxTxn) (tn : Nat) : Option TransRec × List String :=
  match t.date with
  | none => (none, [txnMsg tn (": Date is required")])
  | some d =>
    match t.amount with
    | none => (none, [txnMsg tn (": Amount is required")])
    | some a =>
      (some { date := d
              description := ofx_description t
              amount := a
              category := determine_category t
              member := ""
              source := ""
              reference_number :=
                if t.tid ≠ "" then t.tid
                else if t.checknum ≠ "" then "CHECK-" ++ t.checknum
                else "" }, [])

def ofx_parse_txns : Nat → List OfxTxn → List TransRec × List String
  | _, [] => ([], [])
  | tn, t :: rest =>
    let r := ofx_parse_transaction t tn
    let tail := ofx_parse_txns (tn + 1) rest
    ((match r.1 with | some x => [x] | none => []) ++ tail.1, r.2 ++ tail.2)

/-- `OFXParser.parse`, taken at the `ofxparse` object boundary
(`none` account stands for a missing/falsy `ofx.account`). -/
def ofx_parse (doc : Option OfxAccount) : OFXOut :=
  match doc with
  | none => ⟨[], ["No account information found in OFX file"], []⟩
  | some acc =>
    match acc.statement with
    | none => ⟨[], ["No statement information found in OFX file"], []⟩
    | some st =>
      if st.transactions.isEmpty then ⟨[], [], ["No transactions found in statement"]⟩
      else
        let pr := ofx_parse_txns 1 st.transactions
        ⟨pr.1, pr.2, []⟩

/-! ## Frame lemmas -/

theorem applyBalance_budget (a : List (Nat × Dec)) (it : BudgetItem) :
    (applyBalance a it).budget = it.budget := by
  unfold applyBalance; cases a.lookup it.pk <;> rfl

theorem applyBalance_date (a : List (Nat × Dec)) (it : BudgetItem) :
    (applyBalance a it).date = it.date := by
  unfold applyBalance; cases a.lookup it.pk <;> rfl

theorem applyBalance_seq (a : List (Nat × Dec)) (it : BudgetItem) :
    (applyBalance a it).sequence_number = it.sequence_number := by
  unfold applyBalance; cases a.lookup it.pk <;> rfl

theorem applyBalance_mv (a : List (Nat × Dec)) (it : BudgetItem) :
    (applyBalance a it).monitary_value = it.monitary_value := by
  unfold applyBalance; cases a.lookup it.pk <;> rfl

theorem applyBalance_uid (a : List (Nat × Dec)) (it : BudgetItem) :
    (applyBalance a it).unique_id = it.unique_id := by
  unfold applyBalance; cases a.lookup it.pk <;> rfl

theorem applyBalance_pk (a : List (Nat × Dec)) (it : BudgetItem) :
    (applyBalance a it).pk = it.pk := by
  unfold applyBalance; cases a.lookup it.pk <;> rfl

theorem applyBalance_imported (a : List (Nat × Dec)) (it : BudgetItem) :
    (applyBalance a it).imported = it.imported := by
  unfold applyBalance; cases a.lookup it.pk <;> rfl

theorem goc_cat_items (db : DB) (bid : Nat) (n : String) :
    (get_or_create_category db bid n).2.items = db.items := by
  simp only [get_or_create_category, updateBudget]
  split_ifs <;> rfl

theorem goc_cat_ntpk (db : DB) (bid : Nat) (n : String) :
    (get_or_create_category db bid n).2.next_tracker_pk = db.next_tracker_pk := by
  simp only [get_or_create_category, updateBudget]
  split_ifs <;> rfl

theorem goc_cat_nipk (db : DB) (bid : Nat) (n : String) :
    (get_or_create_category db bid n).2.next_item_pk = db.next_item_pk := by
  simp only [get_or_create_category, updateBudget]
  split_ifs <;> rfl

theorem goc_cat_curr (db : DB) (bid : Nat) (n : String) (x : Nat) :
    ((get_or_create_category db bid n).2.budgets x).current_sequence_number =
      (db.budgets x).current_sequence_number := by
  simp only [get_or_create_category, updateBudget]
  split_ifs <;> (try rfl) <;> (by_cases hx : x = bid <;> simp [hx])

theorem goc_mem_items (db : DB) (bid : Nat) (n : String) :
    (get_or_create_member db bid n).2.items = db.items := by
  simp only [get_or_create_member, updateBudget]
  split_ifs <;> rfl

theorem goc_mem_ntpk (db : DB) (bid : Nat) (n : String) :
    (get_or_create_member db bid n).2.next_tracker_pk = db.next_tracker_pk := by
  simp only [get_or_create_member, updateBudget]
  split_ifs <;> rfl

theorem goc_mem_nipk (db : DB) (bid : Nat) (n : String) :
    (get_or_create_member db bid n).2.next_item_pk = db.next_item_pk := by
  simp only [get_or_create_member, updateBudget]
  split_ifs <;> rfl

theorem goc_mem_curr (db : DB) (bid : Nat) (n : String) (x : Nat) :
    ((get_or_create_member db bid n).2.budgets x).current_sequence_number =
      (db.budgets x).current_sequence_number := by
  simp only [get_or_create_member, updateBudget]
  split_ifs <;> (try rfl) <;> (by_cases hx : x = bid <;> simp [hx])

theorem goc_src_items (db : DB) (bid : Nat) (n : String) :
    (get_or_create_source db bid n).2.items = db.items := by
  simp only [get_or_create_source, updateBudget]
  split_ifs <;> rfl

theorem goc_src_ntpk (db : DB) (bid : Nat) (n : String) :
    (get_or_create_source db bid n).2.next_tracker_pk = db.next_tracker_pk := by
  simp only [get_or_create_source, updateBudget]
  split_ifs <;> rfl

theorem goc_src_nipk (db : DB) (bid : Nat) (n : String) :
    (get_or_create_source db bid n).2.next_item_pk = db.next_item_pk := by
  simp only [get_or_create_source, updateBudget]
  split_ifs <;> rfl

theorem goc_src_curr (db : DB) (bid : Nat) (n : String) (x : Nat) :
    ((get_or_create_source db bid n).2.budgets x).current_sequence_number =
      (db.budgets x).current_sequence_number := by
  simp only [get_or_create_source, updateBudget]
  split_ifs <;> (try rfl) <;> (by_cases hx : x = bid <;> simp [hx])

theorem goc_cat_none (db : DB) (bid : Nat) (n : String)
    (h : (get_or_create_category db bid n).1 = none) :
    (get_or_create_category db bid n).2 = db := by
  by_cases hn : n = ""
  · simp [get_or_create_category, hn]
  · simp [get_or_create_category, hn] at h

theorem gns_items (db : DB) (bid : Nat) :
    (Budget.get_next_sequence_number db bid).2.items = db.items := rfl

theorem gns_ntpk (db : DB) (bid : Nat) :
    (Budget.get_next_sequence_number db bid).2.next_tracker_pk = db.next_tracker_pk := rfl

theorem gns_nipk (db : DB) (bid : Nat) :
    (Budget.get_next_sequence_number db bid).2.next_item_pk = db.next_item_pk := rfl

theorem gns_curr (db : DB) (bid : Nat) (x : Nat) :
    ((Budget.get_next_sequence_number db bid).2.budgets x).current_sequence_number =
      (if x = bid then (db.budgets bid).current_sequence_number + 1
       else (db.budgets x).current_sequence_number) := by
  simp only [Budget.get_next_sequence_number, updateBudget]
  split_ifs with hx <;> simp [hx]

theorem gns_fst (db : DB) (bid : Nat) :
    (Budget.get_next_sequence_number db bid).1 =
      (db.budgets bid).current_sequence_number + 1 := rfl

theorem itemLe_refl (a : BudgetItem) : itemLe a a := by
  unfold itemLe; omega

theorem create_item_items (bid : Nat) (fn : String) (tpk : Nat) (t : TransRec)
    (cname : String) (db1 : DB) :
    (create_item bid fn tpk t cname db1).1.items =
      db1.items ++ [(create_item bid fn tpk t cname db1).2] := by
  simp only [create_item]
  by_cases hm : t.member ≠ "" <;> by_cases hs : t.source ≠ "" <;>
    simp [hm, hs, goc_mem_items, goc_src_items, gns_items]

theorem create_item_ntpk (bid : Nat) (fn : String) (tpk : Nat) (t : TransRec)
    (cname : String) (db1 : DB) :
    (create_item bid fn tpk t cname db1).1.next_tracker_pk = db1.next_tracker_pk := by
  simp only [create_item]
  by_cases hm : t.member ≠ "" <;> by_cases hs : t.source ≠ "" <;>
    simp [hm, hs, goc_mem_ntpk, goc_src_ntpk, gns_ntpk]

theorem create_item_nipk (bid : Nat) (fn : String) (tpk : Nat) (t : TransRec)
    (cname : String) (db1 : DB) :
    (create_item bid fn tpk t cname db1).1.next_item_pk = db1.next_item_pk + 1 := by
  simp only [create_item]
  by_cases hm : t.member ≠ "" <;> by_cases hs : t.source ≠ "" <;>
    simp [hm, hs, goc_mem_nipk, goc_src_nipk, gns_nipk]

theorem create_item_curr_other (bid : Nat) (fn : String) (tpk : Nat) (t : TransRec)
    (cname : String) (db1 : DB) (x : Nat) (hx : x ≠ bid) :
    (((create_item bid fn tpk t cname db1).1.budgets x).current_sequence_number) =
      (db1.budgets x).current_sequence_number := by
  simp only [create_item]
  by_cases hm : t.member ≠ "" <;> by_cases hs : t.source ≠ "" <;>
    simp [hm, hs, gns_curr, hx, goc_mem_curr, goc_src_curr]

theorem create_item_curr_bid (bid : Nat) (fn : String) (tpk : Nat) (t : TransRec)
    (cname : String) (db1 : DB) :
    (((create_item bid fn tpk t cname db1).1.budgets bid).current_sequence_number) =
      (db1.budgets bid).current_sequence_number + 1 := by
  simp only [create_item]
  by_cases hm : t.member ≠ "" <;> by_cases hs : t.source ≠ "" <;>
    simp [hm, hs, gns_curr, goc_mem_curr, goc_src_curr]

theorem create_item_snd_pk (bid : Nat) (fn : String) (tpk : Nat) (t : TransRec)
    (cname : String) (db1 : DB) :
    (create_item bid fn tpk t cname db1).2.pk = db1.next_item_pk := by
  simp only [create_item]
  by_cases hm : t.member ≠ "" <;> by_cases hs : t.source ≠ "" <;>
    simp [hm, hs, goc_mem_nipk, goc_src_nipk, gns_nipk]

theorem create_item_snd_seq (bid : Nat) (fn : String) (tpk : Nat) (t : TransRec)
    (cname : String) (db1 : DB) :
    (create_item bid fn tpk t cname db1).2.sequence_number =
      (db1.budgets bid).current_sequence_number + 1 := by
  simp only [create_item]
  by_cases hm : t.member ≠ "" <;> by_cases hs : t.source ≠ "" <;>
    simp [hm, hs, gns_fst, goc_mem_curr, goc_src_curr]

theorem create_item_snd_uid (bid : Nat) (fn : String) (tpk : Nat) (t : TransRec)
    (cname : String) (db1 : DB) :
    (create_item bid fn tpk t cname db1).2.unique_id =
      mkUid tpk ((create_item bid fn tpk t cname db1).2.sequence_number) := rfl

theorem create_item_snd_imported (bid : Nat) (fn : String) (tpk : Nat) (t : TransRec)
    (cname : String) (db1 : DB) :
    (create_item bid fn tpk t cname db1).2.imported = true := rfl

theorem create_item_snd_budget (bid : Nat) (fn : String) (tpk : Nat) (t : TransRec)
    (cname : String) (db1 : DB) :
    (create_item bid fn tpk t cname db1).2.budget = bid := rfl

/-- Effect of one loop iteration on the persisted state: at most one
item is appended, carrying the run's tracker identity in its unique id
and the freshly drawn sequence number and primary key. -/
theorem process_one_shape (bid : Nat) (fn : String) (tpk idx : Nat) (t : TransRec) (st : LoopSt) :
    ∃ new : List BudgetItem,
      new.length ≤ 1 ∧
      (process_one bid fn tpk idx t st).db.items = st.db.items ++ new ∧
      (process_one bid fn tpk idx t st).db.next_tracker_pk = st.db.next_tracker_pk ∧
      (process_one bid fn tpk idx t st).db.next_item_pk = st.db.next_item_pk + new.length ∧
      (∀ x, x ≠ bid → ((process_one bid fn tpk idx t st).db.budgets x).current_sequence_number =
        (st.db.budgets x).current_sequence_number) ∧
      ((process_one bid fn tpk idx t st).db.budgets bid).current_sequence_number =
        (st.db.budgets bid).current_sequence_number + new.length ∧
      (∀ item ∈ new,
        item.unique_id = mkUid tpk item.sequence_number ∧
        item.imported = true ∧
        item.budget = bid ∧
        item.pk = st.db.next_item_pk ∧
        item.sequence_number = (st.db.budgets bid).current_sequence_number + 1) := by
  by_cases hd : is_duplicate st.db bid t = true
  · have hdb : (process_one bid fn tpk idx t st).db = st.db := by
      unfold process_one; rw [if_pos hd]
    exact ⟨[], by simp, by rw [hdb]; simp, by rw [hdb], by rw [hdb]; simp,
      fun x _ => by rw [hdb], by rw [hdb]; simp, by simp⟩
  · rcases hg : get_or_create_category st.db bid t.category with ⟨o, db1⟩
    cases o with
    | none =>
      have hdb1 : db1 = st.db := by
        have h1 : (get_or_create_category st.db bid t.category).1 = none := by rw [hg]
        have h2 := goc_cat_none st.db bid t.category h1
        rw [hg] at h2; exact h2
      have hdb : (process_one bid fn tpk idx t st).db = st.db := by
        unfold process_one; rw [if_neg hd, hg, hdb1]
      exact ⟨[], by simp, by rw [hdb]; simp, by rw [hdb], by rw [hdb]; simp,
        fun x _ => by rw [hdb], by rw [hdb]; simp, by simp⟩
    | some cname =>
      have hdb : (process_one bid fn tpk idx t st).db = (create_item bid fn tpk t cname db1).1 := by
        unfold process_one; rw [if_neg hd, hg]
      have hdb1i : db1.items = st.db.items := by
        have := goc_cat_items st.db bid t.category; rw [hg] at this; exact this
      have hdb1t : db1.next_tracker_pk = st.db.next_tracker_pk := by
        have := goc_cat_ntpk st.db bid t.category; rw [hg] at this; exact this
      have hdb1p : db1.next_item_pk = st.db.next_item_pk := by
        have := goc_cat_nipk st.db bid t.category; rw [hg] at this; exact this
      have hdb1c : ∀ x, (db1.budgets x).current_sequence_number =
          (st.db.budgets x).current_sequence_number := by
        intro x
        have := goc_cat_curr st.db bid t.category x; rw [hg] at this; exact this
      refine ⟨[(create_item bid fn tpk t cname db1).2], by simp, ?_, ?_, ?_, ?_, ?_, ?_⟩
      · rw [hdb, create_item_items, hdb1i]
      · rw [hdb, create_item_ntpk, hdb1t]
      · rw [hdb, create_item_nipk, hdb1p]; simp
      · intro x hx
        rw [hdb, create_item_curr_other bid fn tpk t cname db1 x hx, hdb1c]
      · rw [hdb, create_item_curr_bid, hdb1c]; simp
      · intro item hitem
        have hitem' : item = (create_item bid fn tpk t cname db1).2 := by simpa using hitem
        subst hitem'
        exact ⟨create_item_snd_uid bid fn tpk t cname db1,
          create_item_snd_imported bid fn tpk t cname db1,
          create_item_snd_budget bid fn tpk t cname db1,
          by rw [create_item_snd_pk, hdb1p],
          by rw [create_item_snd_seq, hdb1c]⟩

/-- Aggregate effect of the import loop: it appends the created items,
each stamped with the run's tracker identity, and leaves the tracker pk
counter alone. -/
theorem run_loop_shape (bid : Nat) (fn : String) (tpk : Nat) :
    ∀ (txns : List TransRec) (idx : Nat) (st : LoopSt),
      ∃ new : List BudgetItem,
        (run_loop bid fn tpk idx txns st).db.items = st.db.items ++ new ∧
        (run_loop bid fn tpk idx txns st).db.next_tracker_pk = st.db.next_tracker_pk ∧
        ∀ item ∈ new, item.unique_id = mkUid tpk item.sequence_number ∧
          item.imported = true ∧ item.budget = bid := by
  intro txns
  induction txns with
  | nil =>
    intro idx st
    exact ⟨[], by simp [run_loop], by simp [run_loop], by simp⟩
  | cons t ts ih =>
    intro idx st
    obtain ⟨new1, hlen1, hitems1, hntpk1, _, _, _, hnew1⟩ := process_one_shape bid fn tpk idx t st
    obtain ⟨new2, hitems2, hntpk2, hnew2⟩ := ih (idx + 1) (process_one bid fn tpk idx t st)
    refine ⟨new1 ++ new2, ?_, ?_, ?_⟩
    · show (run_loop bid fn tpk (idx + 1) ts (process_one bid fn tpk idx t st)).db.items = _
      rw [hitems2, hitems1, List.append_assoc]
    · show (run_loop bid fn tpk (idx + 1) ts (process_one bid fn tpk idx t st)).db.next_tracker_pk = _
      rw [hntpk2, hntpk1]
    · intro item hitem
      rcases List.mem_append.mp hitem with hA | hB
      · obtain ⟨hu, hi, hb, _, _⟩ := hnew1 item hA
        exact ⟨hu, hi, hb⟩
      · exact hnew2 item hB

/-- One import-loop iteration preserves the database invariant. -/
theorem process_one_WF (bid : Nat) (fn : String) (tpk idx : Nat) (t : TransRec) (st : LoopSt)
    (h : WF st.db) : WF (process_one bid fn tpk idx t st).db := by
  obtain ⟨new, hlen, hitems, _, hnipk, hother, hbid, hnew⟩ := process_one_shape bid fn tpk idx t st
  obtain ⟨h1, h2, h3, h4⟩ := h
  cases new with
  | nil =>
    simp only [List.append_nil] at hitems
    simp only [List.length_nil, Nat.add_zero] at hnipk hbid
    refine ⟨?_, ?_, ?_, ?_⟩
    · rw [hitems]; exact h1
    · intro it hit; rw [hitems] at hit; rw [hnipk]; exact h2 it hit
    · rw [hitems]; exact h3
    · intro it hit; rw [hitems] at hit
      by_cases hb : it.budget = bid
      · have e : ((process_one bid fn tpk idx t st).db.budgets it.budget).current_sequence_number =
            (st.db.budgets it.budget).current_sequence_number := by rw [hb, hbid]
        rw [e]; exact h4 it hit
      · rw [hother it.budget hb]; exact h4 it hit
  | cons item rest =>
    have hrl : rest.length = 0 := by
      simp only [List.length_cons] at hlen; omega
    have hrest : rest = [] := List.length_eq_zero.mp hrl
    subst hrest
    obtain ⟨hu, hi, hbgt, hpk, hseq⟩ := hnew item (by simp)
    simp only [List.length_cons, List.length_nil, Nat.zero_add] at hnipk hbid
    refine ⟨?_, ?_, ?_, ?_⟩
    · rw [hitems, List.map_append]
      have hnotin : item.pk ∉ st.db.items.map (fun it => it.pk) := by
        intro hcon
        obtain ⟨it2, hit2, he⟩ := List.mem_map.mp hcon
        have := h2 it2 hit2
        omega
      refine List.Nodup.append h1 (by simp) ?_
      intro a ha hb
      have ha' : a = item.pk := by simpa using hb
      subst ha'
      exact hnotin ha
    · intro it hit
      rw [hitems] at hit
      rw [hnipk]
      rcases List.mem_append.mp hit with hA | hB
      · have := h2 it hA; omega
      · have hB' : it = item := by simpa using hB
        subst hB'; omega
    · rw [hitems, List.pairwise_append]
      refine ⟨h3, by simp, ?_⟩
      intro a ha b hb
      have hb' : b = item := by simpa using hb
      subst hb'
      intro hEq
      have e : a.budget = bid := hEq.trans hbgt
      have ha4 := h4 a ha
      rw [e] at ha4
      omega
    · intro it hit
      rw [hitems] at hit
      rcases List.mem_append.mp hit with hA | hB
      · by_cases hb : it.budget = bid
        · have e : ((process_one bid fn tpk idx t st).db.budgets it.budget).current_sequence_number =
              (st.db.budgets bid).current_sequence_number + 1 := by rw [hb, hbid]
          have ht := h4 it hA
          rw [hb] at ht
          rw [e]
          omega
        · rw [hother it.budget hb]; exact h4 it hA
      · have hB' : it = item := by simpa using hB
        subst hB'
        have e : ((process_one bid fn tpk idx t st).db.budgets it.budget).current_sequence_number =
            (st.db.budgets bid).current_sequence_number + 1 := by rw [hbgt, hbid]
        rw [e]
        omega

/-- The whole import loop preserves the database invariant. -/
theorem run_loop_WF (bid : Nat) (fn : String) (tpk : Nat) :
    ∀ (txns : List TransRec) (idx : Nat) (st : LoopSt),
      WF st.db → WF (run_loop bid fn tpk idx txns st).db := by
  intro txns
  induction txns with
  | nil => intro idx st h; simpa [run_loop] using h
  | cons t ts ih =>
    intro idx st h
    exact ih (idx + 1) (process_one bid fn tpk idx t st) (process_one_WF bid fn tpk idx t st h)

/-! ## Helper lemmas for the claims -/

theorem try_formats_eq_find (fmts : List DFmt) (s : String) :
    try_formats fmts s =
      (fmts.find? (fun f => (strptime_date f s).isSome)).bind (fun f => strptime_date f s) := by
  induction fmts with
  | nil => simp [try_formats]
  | cons f rest ih =>
    cases h : strptime_date f s with
    | some d => simp [try_formats, h, List.find?_cons]
    | none => simp [try_formats, h, List.find?_cons, ih]

theorem any_map_proj {α β : Type} (f : α → β) (p : β → Bool) :
    ∀ (l1 l2 : List α), l1.map f = l2.map f →
      l1.any (fun x => p (f x)) = l2.any (fun x => p (f x)) := by
  intro l1
  induction l1 with
  | nil => intro l2 h; cases l2 <;> simp_all
  | cons a t ih =>
    intro l2 h
    cases l2 with
    | nil => simp at h
    | cons b t2 =>
      simp only [List.map_cons, List.cons.injEq] at h
      simp [List.any_cons, h.1, ih t2 h.2]

/-- Projection of a persisted item to the fields the duplicate detector
reads. -/
def dupProj (it : BudgetItem) : Nat × Date × Dec × String :=
  (it.budget, it.date, it.monitary_value, it.description)

/-! ## Concrete fixtures used by the witnesses -/

def budget0 : BudgetRec := ⟨0, [], [], []⟩

def dbEmpty : DB := ⟨[], [], [], [], fun _ => budget0, [], 1, 1⟩

def item1 : BudgetItem :=
  { pk := 0
    budget := 0
    date := ⟨2024, 1, 15⟩
    posted_date := ⟨2024, 1, 15⟩
    description := "Coffee"
    monitary_value := ⟨-500, 2⟩
    sequence_number := 1
    unique_id := "X-1"
    running_balance := ⟨0, 0⟩
    imported := false
    import_source := ""
    reference_number := ""
    member := none
    source := none
    categories := [] }

def item1b : BudgetItem :=
  { item1 with unique_id := "Y-9", running_balance := ⟨777, 2⟩, member := some "alice" }

def dbA : DB := { dbEmpty with items := [item1], budgets := fun _ => ⟨1, [], [], []⟩ }

def dbB : DB := { dbA with items := [item1b] }

def tdup : TransRec := ⟨⟨2024, 1, 15⟩, "Coffee", ⟨-500, 2⟩, "Food", "", "", ""⟩

def xmlRoot0 : Element := .mk "budget" "" [.mk "note" "hello" []]

/-! ## Claim theorems -/

/-- C2: for every input record list, `import_transactions` reports
`success = true` iff the error count is zero or the imported count is at
least one; equivalently `success = false` exactly when at least one row
error occurred and zero records were imported. -/
theorem C2_success_iff_errors_zero_or_imported (db : DB) (bid : Nat)
    (txns : List TransRec) (fn ft : String) :
    ((import_transactions db bid txns fn ft).2.success = true ↔
      ((import_transactions db bid txns fn ft).2.stats.errors = 0 ∨
        1 ≤ (import_transactions db bid txns fn ft).2.stats.imported)) ∧
    ((import_transactions db bid txns fn ft).2.success = false ↔
      (1 ≤ (import_transactions db bid txns fn ft).2.stats.errors ∧
        (import_transactions db bid txns fn ft).2.stats.imported = 0)) := by
  constructor <;>
    simp [import_transactions, Bool.or_eq_true, beq_iff_eq, decide_eq_true_iff] <;>
    omega

/-- C4: the duplicate detector classifies a record as a duplicate iff
some persisted item of the budget matches it on date, exact decimal
amount and description (case-sensitive string equality), and the
decision reads no other field of the stored items. -/
theorem C4_duplicate_iff (db : DB) (bid : Nat) (t : TransRec) :
    (is_duplicate db bid t = true ↔
      ∃ it ∈ db.items, it.budget = bid ∧ it.date = t.date ∧
        it.monitary_value.val = t.amount.val ∧ it.description = t.description) ∧
    (∀ db2 : DB, db.items.map dupProj = db2.items.map dupProj →
      is_duplicate db bid t = is_duplicate db2 bid t) := by
  constructor
  · simp only [is_duplicate, List.any_eq_true, Bool.and_eq_true, beq_iff_eq]
    constructor
    · rintro ⟨it, hit, ⟨⟨hb, hd⟩, ha⟩, hdesc⟩
      exact ⟨it, hit, hb, hd, (Dec.eqb_iff_val _ _).mp ha, hdesc⟩
    · rintro ⟨it, hit, hb, hd, ha, hdesc⟩
      exact ⟨it, hit, ⟨⟨hb, hd⟩, (Dec.eqb_iff_val _ _).mpr ha⟩, hdesc⟩
  · intro db2 hmap
    have h := any_map_proj dupProj
      (fun pr => pr.1 == bid && pr.2.1 == t.date && pr.2.2.1.eqb t.amount && pr.2.2.2 == t.description)
      db.items db2.items hmap
    simpa [is_duplicate, dupProj] using h

theorem C4_duplicate_iff_witness :
    is_duplicate dbA 0 tdup = true ∧ is_duplicate dbA 0 tdup = is_duplicate dbB 0 tdup :=
  ⟨(C4_duplicate_iff dbA 0 tdup).1.mpr ⟨item1, by decide, by decide, by decide, rfl, by decide⟩,
   (C4_duplicate_iff dbA 0 tdup).2 dbB (by decide)⟩

/-- C6: date parsing tries a fixed ordered format list with ISO first,
returns the first matching format's result, is identical between the
delimited-text and markup parsers, and resolves the ambiguous string
`01/02/2024` as month 01, day 02. -/
theorem C6_date_format_order :
    csv_date_formats = xml_date_formats ∧
    csv_date_formats.head? = some DFmt.ymd_dash ∧
    (∀ s, csv_parse_date s = xml_parse_date s) ∧
    (∀ (fmts : List DFmt) (s : String),
      try_formats fmts s =
        (fmts.find? (fun f => (strptime_date f s).isSome)).bind (fun f => strptime_date f s)) ∧
    csv_parse_date "01/02/2024" = some ⟨2024, 1, 2⟩ := by
  refine ⟨rfl, rfl, fun s => rfl, try_formats_eq_find, by decide⟩

/-- C7: when the header row is missing or lacks a required column
(after lowercasing and trimming), the delimited-text parser fails
wholesale: exactly one error, zero records, and the data rows are never
processed. -/
theorem C7_header_failfast (fieldnames : Option (List String)) (rows : List RawRow)
    (h : fieldnames = none ∨ ∃ fns, fieldnames = some fns ∧
      required_headers.all (fun hh => (fns.map (fun x => trimStr (lowerStr x))).contains hh) = false) :
    (csv_parse fieldnames rows).records = [] ∧
    (csv_parse fieldnames rows).errors.length = 1 ∧
    csv_parse fieldnames rows = csv_parse fieldnames [] := by
  rcases h with h | ⟨fns, hf, hall⟩
  · subst h; exact ⟨rfl, rfl, rfl⟩
  · subst hf
    by_cases hnil : fns = []
    · subst hnil
      exact ⟨rfl, rfl, rfl⟩
    · have hcond : ¬ (required_headers.all
          (fun hh => (fns.map (fun x => trimStr (lowerStr x))).contains hh) = true) := by
        intro hc
        rw [hall] at hc
        exact Bool.noConfusion hc
      refine ⟨?_, ?_, ?_⟩ <;>
        (simp only [csv_parse, if_neg hnil, if_neg hcond]; try rfl)

theorem C7_header_failfast_witness :
    (csv_parse (some [hdr_date, hdr_amount]) [[(hdr_date, "2024-01-01")]]).records = [] ∧
    (csv_parse (some [hdr_date, hdr_amount]) [[(hdr_date, "2024-01-01")]]).errors.length = 1 ∧
    csv_parse (some [hdr_date, hdr_amount]) [[(hdr_date, "2024-01-01")]] =
      csv_parse (some [hdr_date, hdr_amount]) [] :=
  C7_header_failfast (some [hdr_date, hdr_amount]) [[(hdr_date, "2024-01-01")]]
    (Or.inr ⟨[hdr_date, hdr_amount], rfl, by decide⟩)

/-- C8: the interchange-format parser's wholesale outcomes — missing
account: one error, zero records; account without statement: one error,
zero records; statement with an empty transaction list: one warning,
zero records, zero errors. -/
theorem C8_ofx_wholesale_outcomes :
    (ofx_parse none = ⟨[], ["No account information found in OFX file"], []⟩) ∧
    (∀ acc : OfxAccount, acc.statement = none →
      ofx_parse (some acc) = ⟨[], ["No statement information found in OFX file"], []⟩) ∧
    (∀ (acc : OfxAccount) (st : OfxStatement), acc.statement = some st →
      st.transactions = [] →
      ofx_parse (some acc) = ⟨[], [], ["No transactions found in statement"]⟩) := by
  refine ⟨rfl, ?_, ?_⟩
  · intro acc h
    simp [ofx_parse, h]
  · intro acc st h1 h2
    simp [ofx_parse, h1, h2]

theorem C8_ofx_wholesale_outcomes_witness :
    ofx_parse (some ⟨none⟩) = ⟨[], ["No statement information found in OFX file"], []⟩ ∧
    ofx_parse (some ⟨some ⟨[]⟩⟩) = ⟨[], [], ["No transactions found in statement"]⟩ :=
  ⟨C8_ofx_wholesale_outcomes.2.1 ⟨none⟩ rfl,
   C8_ofx_wholesale_outcomes.2.2 ⟨some ⟨[]⟩⟩ ⟨[]⟩ rfl rfl⟩

/-- C9: `preview_import` creates nothing and mutates nothing — items,
reference tables, budget records (tag sets and sequence counter),
trackers and both pk counters are unchanged, so a re-query of the
budget's item count sees no change. -/
theorem C9_preview_mutates_nothing (db : DB) (bid : Nat) (txns : List TransRec) (lim : Nat) :
    (preview_import db bid txns lim).1.items = db.items ∧
    (preview_import db bid txns lim).1.categories = db.categories ∧
    (preview_import db bid txns lim).1.members = db.members ∧
    (preview_import db bid txns lim).1.sources = db.sources ∧
    (preview_import db bid txns lim).1.trackers = db.trackers ∧
    (preview_import db bid txns lim).1.next_tracker_pk = db.next_tracker_pk ∧
    (preview_import db bid txns lim).1.next_item_pk = db.next_item_pk ∧
    (∀ b, (preview_import db bid txns lim).1.budgets b = db.budgets b) ∧
    (itemsOf (preview_import db bid txns lim).1 bid).length = (itemsOf db bid).length :=
  ⟨rfl, rfl, rfl, rfl, rfl, rfl, rfl, fun _ => rfl, rfl⟩

/-- C10: a well-formed markup document containing no `transaction`
element yields exactly the single wholesale error
"No transactions found in XML file" and zero records — unlike the
interchange parser, where an empty statement is only a warning. -/
theorem C10_empty_xml_error (root : Element) (h : find_transactions root = []) :
    (xml_parse root).records = [] ∧
    (xml_parse root).errors = ["No transactions found in XML file"] ∧
    (xml_parse root).warnings = [] ∧
    (ofx_parse (some ⟨some ⟨[]⟩⟩)).errors = [] := by
  refine ⟨?_, ?_, ?_, rfl⟩ <;> simp [xml_parse, h]

theorem C10_empty_xml_error_witness :
    (xml_parse xmlRoot0).records = [] ∧
    (xml_parse xmlRoot0).errors = ["No transactions found in XML file"] ∧
    (xml_parse xmlRoot0).warnings = [] ∧
    (ofx_parse (some ⟨some ⟨[]⟩⟩)).errors = [] :=
  C10_empty_xml_error xmlRoot0
    (by simp [find_transactions, xmlRoot0, Element.children, Element.tag, descList])

/-- When every record is already stored, the loop only counts
duplicates: the database is untouched and no import or error occurs. -/
theorem run_loop_all_dups (bid : Nat) (fn : String) (tpk : Nat) :
    ∀ (txns : List TransRec) (idx : Nat) (st : LoopSt),
      (∀ t ∈ txns, is_duplicate st.db bid t = true) →
      (run_loop bid fn tpk idx txns st).db = st.db ∧
      (run_loop bid fn tpk idx txns st).stats.imported = st.stats.imported ∧
      (run_loop bid fn tpk idx txns st).stats.errors = st.stats.errors ∧
      (run_loop bid fn tpk idx txns st).stats.duplicates = st.stats.duplicates + txns.length := by
  intro txns
  induction txns with
  | nil => intro idx st _; exact ⟨rfl, rfl, rfl, by simp [run_loop]⟩
  | cons t ts ih =>
    intro idx st h
    have hd : is_duplicate st.db bid t = true := h t (List.mem_cons_self t ts)
    have hpo : process_one bid fn tpk idx t st =
        { st with
          stats := { st.stats with duplicates := st.stats.duplicates + 1 },
          duplicates := st.duplicates ++ [⟨idx, t.description, t.date, t.amount⟩] } := by
      unfold process_one; rw [if_pos hd]
    have hdb : (process_one bid fn tpk idx t st).db = st.db := by rw [hpo]
    have himp : (process_one bid fn tpk idx t st).stats.imported = st.stats.imported := by rw [hpo]
    have herr : (process_one bid fn tpk idx t st).stats.errors = st.stats.errors := by rw [hpo]
    have hdup : (process_one bid fn tpk idx t st).stats.duplicates = st.stats.duplicates + 1 := by
      rw [hpo]
    have hrest := ih (idx + 1) (process_one bid fn tpk idx t st)
      (fun t' ht' => by rw [hdb]; exact h t' (List.mem_cons_of_mem t ht'))
    refine ⟨?_, ?_, ?_, ?_⟩
    · show (run_loop bid fn tpk (idx + 1) ts (process_one bid fn tpk idx t st)).db = st.db
      rw [hrest.1, hdb]
    · show (run_loop bid fn tpk (idx + 1) ts (process_one bid fn tpk idx t st)).stats.imported =
        st.stats.imported
      rw [hrest.2.1, himp]
    · show (run_loop bid fn tpk (idx + 1) ts (process_one bid fn tpk idx t st)).stats.errors =
        st.stats.errors
      rw [hrest.2.2.1, herr]
    · show (run_loop bid fn tpk (idx + 1) ts (process_one bid fn tpk idx t st)).stats.duplicates =
        st.stats.duplicates + (t :: ts).length
      rw [hrest.2.2.2, hdup, List.length_cons]
      omega

/-- C3 counterexample: a non-empty all-duplicates batch (zero imported,
all records counted as duplicates, zero errors) reports
`success = true`, not `success = false` as claimed. -/
theorem C3_all_duplicates_counterexample :
    ([tdup] ≠ ([] : List TransRec)) ∧
    (∀ t ∈ [tdup], is_duplicate dbA 0 t = true) ∧
    (import_transactions dbA 0 [tdup] "dups.csv" "csv").2.stats.imported = 0 ∧
    (import_transactions dbA 0 [tdup] "dups.csv" "csv").2.stats.duplicates = 1 ∧
    (import_transactions dbA 0 [tdup] "dups.csv" "csv").2.stats.errors = 0 ∧
    (import_transactions dbA 0 [tdup] "dups.csv" "csv").2.success = true := by
  refine ⟨by decide, by decide, by decide, by decide, by decide, by decide⟩

/-- C3 (amended): a non-empty record list in which every record is a
duplicate of an already-stored item imports nothing, counts every record
as a duplicate, records no error — and therefore returns
`success = true` under the zero-errors-or-some-imported rule. -/
theorem C3_all_duplicates_success_true (db : DB) (bid : Nat) (txns : List TransRec)
    (fn ft : String) (_hne : txns ≠ [])
    (hall : ∀ t ∈ txns, is_duplicate db bid t = true) :
    (import_transactions db bid txns fn ft).2.success = true ∧
    (import_transactions db bid txns fn ft).2.stats.imported = 0 ∧
    (import_transactions db bid txns fn ft).2.stats.errors = 0 ∧
    (import_transactions db bid txns fn ft).2.stats.duplicates = txns.length := by
  obtain ⟨hdb, himp, herr, hdup⟩ := run_loop_all_dups bid fn db.next_tracker_pk txns 1
    ⟨{ db with
        trackers := db.trackers ++
          [⟨db.next_tracker_pk, bid, fn, ft, 0, 0, "Bulk Upload: " ++ fn⟩],
        next_tracker_pk := db.next_tracker_pk + 1 },
      ⟨txns.length, 0, 0, 0, 0⟩, [], []⟩
    (fun t ht => hall t ht)
  refine ⟨?_, ?_, ?_, ?_⟩ <;> simp only [import_transactions]
  · rw [herr]; simp
  · rw [himp]
  · rw [herr]
  · rw [hdup]; simp

theorem C3_all_duplicates_success_true_witness :
    (import_transactions dbA 0 [tdup] "d.csv" "csv").2.success = true ∧
    (import_transactions dbA 0 [tdup] "d.csv" "csv").2.stats.imported = 0 ∧
    (import_transactions dbA 0 [tdup] "d.csv" "csv").2.stats.errors = 0 ∧
    (import_transactions dbA 0 [tdup] "d.csv" "csv").2.stats.duplicates = 1 :=
  C3_all_duplicates_success_true dbA 0 [tdup] "d.csv" "csv" (by decide) (by decide)

theorem recalc_ntpk (db : DB) (bid : Nat) :
    (recalculate_running_balances db bid).next_tracker_pk = db.next_tracker_pk := rfl

theorem recalc_items (db : DB) (bid : Nat) :
    (recalculate_running_balances db bid).items =
      db.items.map (applyBalance (scanB ⟨0, 2⟩ (List.insertionSort itemLe (itemsOf db bid)))) := rfl

theorem mem_drop_map_append {α β : Type} (g : α → β) (l1 new : List α) (it : β)
    (hit : it ∈ ((l1 ++ new).map g).drop l1.length) : ∃ x ∈ new, it = g x := by
  rw [List.map_append] at hit
  have hlen : (l1.map g).length = l1.length := List.length_map l1 g
  rw [← hlen, List.drop_left] at hit
  obtain ⟨x, hx, he⟩ := List.mem_map.mp hit
  exact ⟨x, hx, he.symm⟩

/-- Decomposition of one `import_transactions` call: the items appended
by the run carry `IMP-<tracker pk>-<sequence>` unique ids and the
`imported` flag, the tracker pk counter advances by one, and the
returned tracker id is the pk the run drew. -/
theorem import_new_items (db : DB) (bid : Nat) (txns : List TransRec) (fn ft : String) :
    (∀ it ∈ (import_transactions db bid txns fn ft).1.items.drop db.items.length,
        it.unique_id = mkUid db.next_tracker_pk it.sequence_number ∧
        it.imported = true ∧ it.budget = bid) ∧
    (import_transactions db bid txns fn ft).1.next_tracker_pk = db.next_tracker_pk + 1 ∧
    (import_transactions db bid txns fn ft).2.import_tracker_id = db.next_tracker_pk := by
  obtain ⟨new, hitems, hntpk, hnew⟩ := run_loop_shape bid fn db.next_tracker_pk txns 1
    ⟨{ db with
        trackers := db.trackers ++
          [⟨db.next_tracker_pk, bid, fn, ft, 0, 0, "Bulk Upload: " ++ fn⟩],
        next_tracker_pk := db.next_tracker_pk + 1 },
      ⟨txns.length, 0, 0, 0, 0⟩, [], []⟩
  dsimp only at hitems hntpk
  refine ⟨?_, ?_, rfl⟩
  · intro it hit
    simp only [import_transactions, recalc_items] at hit
    rw [hitems] at hit
    obtain ⟨x, hx, hxe⟩ := mem_drop_map_append _ db.items new it hit
    obtain ⟨hu, hi, hb⟩ := hnew x hx
    subst hxe
    refine ⟨?_, ?_, ?_⟩
    · rw [applyBalance_uid, applyBalance_seq, hu]
    · rw [applyBalance_imported, hi]
    · rw [applyBalance_budget, hb]
  · simp only [import_transactions, recalc_ntpk]
    rw [hntpk]

/-- C5: every item persisted by `import_transactions` has its unique id
built as `IMP-<tracker id>-<sequence>` from the run's tracker identity
and assigned sequence number, and items created by two distinct import
runs into the same budget never share a unique id. -/
theorem C5_import_unique_ids (db : DB) (bid : Nat) (tx1 tx2 : List TransRec)
    (fn1 ft1 fn2 ft2 : String) :
    (∀ it ∈ (import_transactions db bid tx1 fn1 ft1).1.items.drop db.items.length,
      it.unique_id =
        mkUid (import_transactions db bid tx1 fn1 ft1).2.import_tracker_id it.sequence_number ∧
      it.imported = true) ∧
    (∀ i1 ∈ (import_transactions db bid tx1 fn1 ft1).1.items.drop db.items.length,
     ∀ i2 ∈ (import_transactions (import_transactions db bid tx1 fn1 ft1).1 bid
          tx2 fn2 ft2).1.items.drop (import_transactions db bid tx1 fn1 ft1).1.items.length,
      i1.unique_id ≠ i2.unique_id) := by
  obtain ⟨hA1, hN1, hT1⟩ := import_new_items db bid tx1 fn1 ft1
  obtain ⟨hA2, _, _⟩ := import_new_items (import_transactions db bid tx1 fn1 ft1).1 bid tx2 fn2 ft2
  constructor
  · intro it hit
    obtain ⟨hu, hi, _⟩ := hA1 it hit
    rw [hT1]
    exact ⟨hu, hi⟩
  · intro i1 h1 i2 h2 hcon
    obtain ⟨hu1, _, _⟩ := hA1 i1 h1
    obtain ⟨hu2, _, _⟩ := hA2 i2 h2
    rw [hu1, hu2] at hcon
    have heq := mkUid_tracker_inj _ _ _ _ hcon
    rw [hN1] at heq
    omega

def timp : TransRec := ⟨⟨2024, 2, 1⟩, "Salary", ⟨100000, 2⟩, "Income", "", "", ""⟩

def timp2 : TransRec := ⟨⟨2024, 2, 2⟩, "Rent", ⟨-50000, 2⟩, "Housing", "", "", ""⟩

def run1DB : DB := (import_transactions dbEmpty 0 [timp] "a.csv" "csv").1

def run2DB : DB := (import_transactions run1DB 0 [timp2] "b.csv" "csv").1

def i1w : BudgetItem := (run1DB.items.drop dbEmpty.items.length).headD item1

def i2w : BudgetItem := (run2DB.items.drop run1DB.items.length).headD item1

theorem C5_import_unique_ids_witness :
    (i1w.unique_id =
      mkUid (import_transactions dbEmpty 0 [timp] "a.csv" "csv").2.import_tracker_id
        i1w.sequence_number) ∧
    i1w.unique_id ≠ i2w.unique_id :=
  ⟨((C5_import_unique_ids dbEmpty 0 [timp] [timp2] "a.csv" "csv" "b.csv" "csv").1
      i1w (by decide)).1,
   (C5_import_unique_ids dbEmpty 0 [timp] [timp2] "a.csv" "csv" "b.csv" "csv").2
      i1w (by decide) i2w (by decide)⟩

/-- The balance scan over a sorted, key-distinct item list assigns each
item the accumulator seed plus the sum of the amounts of the items at or
before it in the ordering. -/
theorem scanB_lookup :
    ∀ (l : List BudgetItem), List.Pairwise itemLe l →
      (l.map itemKey).Nodup → (l.map (fun it => it.pk)).Nodup →
      ∀ it ∈ l, ∀ acc : Dec,
        ∃ b, (scanB acc l).lookup it.pk = some b ∧
          b.val = acc.val +
            ((l.filter (fun j => decide (itemLe j it))).map
              (fun j => j.monitary_value.val)).sum := by
  intro l
  induction l with
  | nil => intro _ _ _ it hit; simp at hit
  | cons x rest ih =>
    intro hsort hkeys hpks it hit acc
    rcases List.mem_cons.mp hit with heq | hmem
    · subst heq
      refine ⟨acc.add it.monitary_value, by simp [scanB, List.lookup], ?_⟩
      have hfilter : rest.filter (fun j => decide (itemLe j it)) = [] := by
        rw [List.filter_eq_nil_iff]
        intro j hj
        simp only [decide_eq_true_eq]
        intro hle
        have hxj : itemLe it j := (List.pairwise_cons.mp hsort).1 j hj
        have hk : itemKey j = itemKey it := itemLe_antisymm_key j it hle hxj
        have hnotin : itemKey it ∉ rest.map itemKey := by
          simp only [List.map_cons, List.nodup_cons] at hkeys
          exact hkeys.1
        exact hnotin (by rw [← hk]; exact List.mem_map_of_mem _ hj)
      rw [List.filter_cons]
      simp [itemLe_refl, hfilter, Dec.val_add]
    · have hpkne : (it.pk == x.pk) = false := by
        have hx : x.pk ∉ rest.map (fun it => it.pk) := by
          simp only [List.map_cons, List.nodup_cons] at hpks
          exact hpks.1
        have hne : it.pk ≠ x.pk := by
          intro hc
          exact hx (by rw [← hc]; exact List.mem_map_of_mem _ hmem)
        simpa using hne
      obtain ⟨b, hlook, hval⟩ := ih (List.pairwise_cons.mp hsort).2
        (by simp only [List.map_cons, List.nodup_cons] at hkeys; exact hkeys.2)
        (by simp only [List.map_cons, List.nodup_cons] at hpks; exact hpks.2)
        it hmem (acc.add x.monitary_value)
      refine ⟨b, by simp [scanB, List.lookup, hpkne, hlook], ?_⟩
      rw [hval, Dec.val_add]
      have hxle : decide (itemLe x it) = true := by
        simp only [decide_eq_true_eq]
        exact (List.pairwise_cons.mp hsort).1 it hmem
      rw [List.filter_cons]
      simp only [hxle, if_true, List.map_cons, List.sum_cons]
      ring

/-- Under the state invariant, a budget's items have pairwise-distinct
`(date, sequence_number)` keys and pairwise-distinct primary keys. -/
theorem WF_itemsOf_nodup (db : DB) (bid : Nat) (h : WF db) :
    ((itemsOf db bid).map itemKey).Nodup ∧
    ((itemsOf db bid).map (fun it => it.pk)).Nodup := by
  obtain ⟨h1, _, h3, _⟩ := h
  constructor
  · have hsub : List.Sublist (itemsOf db bid) db.items := List.filter_sublist _
    have hp : List.Pairwise (fun a b : BudgetItem =>
        a.budget = b.budget → a.sequence_number ≠ b.sequence_number) (itemsOf db bid) :=
      h3.sublist hsub
    have hmem : ∀ it ∈ itemsOf db bid, it.budget = bid := by
      intro it hit
      have := List.mem_filter.mp hit
      simpa using this.2
    rw [List.Nodup, List.pairwise_map]
    refine hp.imp_of_mem ?_
    intro a b ha hb hrel hkeq
    have hseq : a.sequence_number = b.sequence_number := by
      have := congrArg (fun k : Nat × Nat × Nat × Nat => k.2.2.2) hkeq
      simpa [itemKey] using this
    exact hrel ((hmem a ha).trans (hmem b hb).symm) hseq
  · have hsub : List.Sublist ((itemsOf db bid).map (fun it => it.pk))
        (db.items.map (fun it => it.pk)) := (List.filter_sublist _).map _
    exact h1.sublist hsub

/-- Correctness of the full-recompute pass: afterwards every item of the
budget carries the exact cumulative sum (accumulator seeded with
`Decimal("0.00")`) of the amounts of the items at or before it in
`(date, sequence_number)` order. -/
theorem recalc_running_balance (db : DB) (bid : Nat)
    (hkeys : ((itemsOf db bid).map itemKey).Nodup)
    (hpks : (db.items.map (fun it => it.pk)).Nodup) :
    ∀ it ∈ itemsOf (recalculate_running_balances db bid) bid,
      it.running_balance.val =
        (((itemsOf (recalculate_running_balances db bid) bid).filter
            (fun j => decide (itemLe j it))).map (fun j => j.monitary_value.val)).sum := by
  have hperm : List.Perm (List.insertionSort itemLe (itemsOf db bid)) (itemsOf db bid) :=
    List.perm_insertionSort itemLe (itemsOf db bid)
  have hsort : List.Pairwise itemLe (List.insertionSort itemLe (itemsOf db bid)) :=
    List.sorted_insertionSort itemLe (itemsOf db bid)
  have hkeys_srt : ((List.insertionSort itemLe (itemsOf db bid)).map itemKey).Nodup :=
    ((hperm.map itemKey).nodup_iff).mpr hkeys
  have hpks_l0 : ((itemsOf db bid).map (fun it => it.pk)).Nodup :=
    hpks.sublist ((List.filter_sublist _).map _)
  have hpks_srt : ((List.insertionSort itemLe (itemsOf db bid)).map (fun it => it.pk)).Nodup :=
    ((hperm.map _).nodup_iff).mpr hpks_l0
  have hpost : itemsOf (recalculate_running_balances db bid) bid =
      (itemsOf db bid).map (applyBalance (scanB ⟨0, 2⟩
        (List.insertionSort itemLe (itemsOf db bid)))) := by
    show (db.items.map (applyBalance (scanB ⟨0, 2⟩
        (List.insertionSort itemLe (itemsOf db bid))))).filter (fun it => it.budget == bid) =
      (itemsOf db bid).map (applyBalance (scanB ⟨0, 2⟩
        (List.insertionSort itemLe (itemsOf db bid))))
    rw [List.filter_map]
    congr 1
    apply List.filter_congr
    intro a _
    simp [Function.comp, applyBalance_budget]
  intro it' hit'
  rw [hpost] at hit'
  obtain ⟨x, hx, hxe⟩ := List.mem_map.mp hit'
  have hxsrt : x ∈ List.insertionSort itemLe (itemsOf db bid) := hperm.mem_iff.mpr hx
  obtain ⟨b, hlook, hval⟩ := scanB_lookup _ hsort hkeys_srt hpks_srt x hxsrt ⟨0, 2⟩
  have hrb : it'.running_balance = b := by
    rw [← hxe]
    simp [applyBalance, hlook]
  have h0 : (⟨0, 2⟩ : Dec).val = 0 := by simp [Dec.val]
  have hs1 : (((List.insertionSort itemLe (itemsOf db bid)).filter
        (fun j => decide (itemLe j x))).map (fun j => j.monitary_value.val)).sum =
      (((itemsOf db bid).filter (fun j => decide (itemLe j x))).map
        (fun j => j.monitary_value.val)).sum :=
    ((hperm.filter _).map _).sum_eq
  have hle_iff : ∀ a : BudgetItem,
      itemLe (applyBalance (scanB ⟨0, 2⟩ (List.insertionSort itemLe (itemsOf db bid))) a) it' ↔
      itemLe a x := by
    intro a
    rw [← hxe]
    unfold itemLe
    rw [applyBalance_date, applyBalance_seq, applyBalance_date, applyBalance_seq]
  have hs2 : ((((itemsOf db bid).map (applyBalance (scanB ⟨0, 2⟩
        (List.insertionSort itemLe (itemsOf db bid))))).filter
          (fun j => decide (itemLe j it'))).map (fun j => j.monitary_value.val)).sum =
      (((itemsOf db bid).filter (fun j => decide (itemLe j x))).map
        (fun j => j.monitary_value.val)).sum := by
    rw [List.filter_map, List.map_map]
    have hfeq : (itemsOf db bid).filter
        ((fun j => decide (itemLe j it')) ∘ applyBalance (scanB ⟨0, 2⟩
          (List.insertionSort itemLe (itemsOf db bid)))) =
        (itemsOf db bid).filter (fun j => decide (itemLe j x)) := by
      apply List.filter_congr
      intro a _
      simp only [Function.comp_apply]
      exact decide_eq_decide.mpr (hle_iff a)
    rw [hfeq]
    apply congrArg List.sum
    apply List.map_congr_left
    intro a _
    simp [Function.comp, applyBalance_mv]
  rw [hrb, hval, h0, zero_add, hpost, hs2]
  exact hs1

/-- C1: after any call to `import_transactions` on an invariant-holding
database, every persisted item of the budget has a running balance equal
to the exact cumulative decimal sum (accumulator starting from zero) of
the amounts of all the budget's items that precede or equal it in
`(date ascending, sequence_number ascending)` order. -/
theorem C1_running_balance_cumsum (db : DB) (bid : Nat) (txns : List TransRec)
    (fn ft : String) (hwf : WF db) :
    ∀ it ∈ itemsOf (import_transactions db bid txns fn ft).1 bid,
      it.running_balance.val =
        (((itemsOf (import_transactions db bid txns fn ft).1 bid).filter
            (fun j => decide (itemLe j it))).map (fun j => j.monitary_value.val)).sum := by
  have hwfL := run_loop_WF bid fn db.next_tracker_pk txns 1
    ⟨{ db with
        trackers := db.trackers ++
          [⟨db.next_tracker_pk, bid, fn, ft, 0, 0, "Bulk Upload: " ++ fn⟩],
        next_tracker_pk := db.next_tracker_pk + 1 },
      ⟨txns.length, 0, 0, 0, 0⟩, [], []⟩
    ⟨hwf.1, hwf.2.1, hwf.2.2.1, hwf.2.2.2⟩
  intro it hit
  exact recalc_running_balance _ bid
    (WF_itemsOf_nodup _ bid ⟨hwfL.1, hwfL.2.1, hwfL.2.2.1, hwfL.2.2.2⟩).1
    hwfL.1 it hit

def t100 : TransRec := ⟨⟨2024, 3, 1⟩, "Deposit", ⟨10000, 2⟩, "Income", "", "", ""⟩

def tm25 : TransRec := ⟨⟨2024, 3, 2⟩, "Groceries", ⟨-2550, 2⟩, "Food", "", "", ""⟩

def tm74 : TransRec := ⟨⟨2024, 3, 3⟩, "Utilities", ⟨-7450, 2⟩, "Bills", "", "", ""⟩

def c1run : DB := (import_transactions dbEmpty 0 [t100, tm25, tm74] "c.csv" "csv").1

def c1first : BudgetItem := (itemsOf c1run 0).headD item1

theorem C1_running_balance_cumsum_witness :
    WF dbEmpty ∧
    c1first.running_balance.val =
      (((itemsOf c1run 0).filter (fun j => decide (itemLe j c1first))).map
        (fun j => j.monitary_value.val)).sum ∧
    (itemsOf c1run 0).map (fun it => it.running_balance) =
      [⟨10000, 2⟩, ⟨7450, 2⟩, ⟨0, 2⟩] :=
  ⟨by decide,
   C1_running_balance_cumsum dbEmpty 0 [t100, tm25, tm74] "c.csv" "csv" (by decide)
     c1first (by decide),
   by decide⟩
